import Mathlib

/-! Shallow embedding of `ps5000a_BlockMode_Example.cpp` (PicoScope 5000A block-mode
console example, function `main`, lines 162-356).  The vendor driver is an opaque
collaborator: a `Driver` record lists the status code and data each driver entry
point would return, and `main` replays the program's control flow against it,
recording every driver call together with the status it returned, the buffer
free events, the printed per-sample lines and the process exit code. -/

/-- `PICO_OK` (PicoStatus.h): the designated success status value. -/
def PICO_OK : Nat := 0

/-- `PICO_POWER_SUPPLY_NOT_CONNECTED` (PicoStatus.h): 0x119. -/
def PICO_POWER_SUPPLY_NOT_CONNECTED : Nat := 0x119

/-- `NO_OF_SAMPLES` (line 170): requested sample count and buffer length. -/
def NO_OF_SAMPLES : Nat := 100

/-- `TIMEOUT_STOP` (line 150): ceiling for the polling iteration counter. -/
def TIMEOUT_STOP : Nat := 2000

/-- `TIMEBASE` (line 241): the requested timebase index. -/
def TIMEBASE : Nat := 250000

/-- `MAX_ADC` (line 333): the device's maximum ADC code, `int16_t` 32767. -/
def MAX_ADC : Int := 32767

/-- The millisecond argument of the `Sleep` call in the polling loop (line 318). -/
def SLEEP_MS : Nat := 1

/-- The confirmation character the user must type at the stdin gate (line 282). -/
def gateChar : Char := 's'

/-- The four analogue channels `PS5000A_CHANNEL_A` .. `PS5000A_CHANNEL_D`. -/
inductive Channel
  | A
  | B
  | C
  | D
deriving DecidableEq, Repr

/-- The voltage-range enumeration `PS5000A_RANGE` (only the analogue input
ranges, as in ps5000aApi.h). -/
inductive PS5000A_RANGE
  | PS5000A_10MV
  | PS5000A_20MV
  | PS5000A_50MV
  | PS5000A_100MV
  | PS5000A_200MV
  | PS5000A_500MV
  | PS5000A_1V
  | PS5000A_2V
  | PS5000A_5V
  | PS5000A_10V
  | PS5000A_20V
  | PS5000A_50V
deriving DecidableEq, Repr

/-- The coupling enumeration `PS5000A_COUPLING` (only the value the program uses). -/
inductive PS5000A_COUPLING
  | PS5000A_DC
deriving DecidableEq, Repr

/-- The driver entry points the program invokes (its driver-call alphabet). -/
inductive Call
  | openUnit
  | changePowerSource
  | setChannel (c : Channel)
  | setDataBuffer (c : Channel)
  | getTimebase
  | setSimpleTrigger
  | setSigGenBuiltInV2
  | runBlock
  | isReady
  | stop
  | getValues
  | closeUnit
deriving DecidableEq, Repr

/-- One observable event of a run: a driver call together with the status code it
returned, or the release (`delete[]`) of one of the two sample buffers. -/
inductive Event
  | call (c : Call) (st : Nat)
  | freeBufferA
  | freeBufferB
deriving DecidableEq, Repr

/-- The driver call of an event, if the event is a call. -/
def Event.callOf : Event → Option Call
  | .call c _ => some c
  | _ => none

/-- The driver calls of a trace, in order. -/
def callsOf (tr : List Event) : List Call :=
  tr.filterMap Event.callOf

/-- How the post-RunBlock polling loop (lines 300-320) ended. -/
inductive PollExit
  | ready
  | errored
  | timedOut
deriving DecidableEq, Repr

/-- Result of the polling loop: how it exited, the `ps5000aIsReady` call events it
made (in order, with their statuses), and the final value of the `time_acq`
counter, which also counts the `Sleep(SLEEP_MS)` calls performed. -/
structure PollResult where
  exit : PollExit
  trace : List Event
  time_acq : Nat
deriving DecidableEq, Repr

/-- The opaque vendor driver, modelled as the responses it would give to each of
the program's calls.  `isReadyStatus`/`isReadyFlag` are indexed by the poll
iteration (the value of `time_acq` when the query is made); `bufferA`/`bufferB`
give the sample codes the driver has deposited in the two buffers by the time
`ps5000aGetValues` succeeds; `getValuesCount` is the actual sample count that
`ps5000aGetValues` writes back through its `noOfSamples` pointer; `input` is the
token read from standard input at the confirmation gate. -/
structure Driver where
  openStatus : Nat
  changePowerSourceStatus : Nat
  setChannelStatus : Channel → Nat
  setDataBufferStatus : Channel → Nat
  getTimebaseStatus : Nat
  setSimpleTriggerStatus : Nat
  setSigGenStatus : Nat
  runBlockStatus : Nat
  isReadyStatus : Nat → Nat
  isReadyFlag : Nat → Bool
  getValuesStatus : Nat
  getValuesCount : Nat
  stopStatus : Nat
  closeUnitStatus : Nat
  bufferA : Nat → Int
  bufferB : Nat → Int
  input : List Char

/-- The polling loop body (lines 302-320), one iteration per call.  `k` is the
current value of `time_acq` (equal to the number of completed iterations, each of
which slept and incremented it); `r` is structural fuel.  Per iteration:
query readiness; a non-`PICO_OK` status returns -1 at once (lines 306-310);
then, if `time_acq > TIMEOUT_STOP`, the timeout path is taken (lines 311-317);
otherwise sleep, increment, and re-check the loop condition `0 == isReady`.
The fuel branch is unreachable from `pollLoop` because the ceiling check fires
first (`pollLoopAux` is always entered with `TIMEOUT_STOP < k + r`). -/
def pollLoopAux (d : Driver) (k : Nat) (r : Nat) : PollResult :=
  if d.isReadyStatus k ≠ PICO_OK then
    ⟨.errored, [.call .isReady (d.isReadyStatus k)], k⟩
  else if TIMEOUT_STOP < k then
    ⟨.timedOut, [.call .isReady (d.isReadyStatus k)], k⟩
  else if d.isReadyFlag k then
    ⟨.ready, [.call .isReady (d.isReadyStatus k)], k + 1⟩
  else
    match r with
    | 0 => ⟨.timedOut, [.call .isReady (d.isReadyStatus k)], k⟩
    | r' + 1 =>
      let rest := pollLoopAux d (k + 1) r'
      ⟨rest.exit, .call .isReady (d.isReadyStatus k) :: rest.trace, rest.time_acq⟩

/-- The polling loop, entered with `isReady = 0`, `status = PICO_OK`,
`time_acq = 0` (lines 300-302). -/
def pollLoop (d : Driver) : PollResult :=
  pollLoopAux d 0 (TIMEOUT_STOP + 1)

/-- A stopping condition for poll iteration `k`: the readiness query errored,
the iteration counter exceeds the ceiling, or the device reported ready. -/
def stopCond (d : Driver) (k : Nat) : Prop :=
  d.isReadyStatus k ≠ PICO_OK ∨ TIMEOUT_STOP < k ∨ d.isReadyFlag k = true

instance (d : Driver) (k : Nat) : Decidable (stopCond d k) := by
  unfold stopCond
  infer_instance

/-- Modelled from the spec: the body of `adc_to_mv` is supplied by
`GenericMethods.h`, which is not among the repository's sources.  The spec
defines the conversion as the pure function `mv = code * range_mv / max_adc_code`
where `range_mv` is the configured voltage range expressed in millivolts.
`rangeMv` gives each range enumerator's full-scale value in millivolts. -/
def rangeMv : PS5000A_RANGE → Int
  | .PS5000A_10MV => 10
  | .PS5000A_20MV => 20
  | .PS5000A_50MV => 50
  | .PS5000A_100MV => 100
  | .PS5000A_200MV => 200
  | .PS5000A_500MV => 500
  | .PS5000A_1V => 1000
  | .PS5000A_2V => 2000
  | .PS5000A_5V => 5000
  | .PS5000A_10V => 10000
  | .PS5000A_20V => 20000
  | .PS5000A_50V => 50000

/-- Modelled from the spec: `mv = code * range_mv / max_adc_code` (spec section
4.6); the `adc_to_mv` body itself is in `GenericMethods.h`, outside `src/`. -/
def adc_to_mv (code : Int) (range : PS5000A_RANGE) (maxADCValue : Int) : Int :=
  code * rangeMv range / maxADCValue

/-- The range argument passed to `adc_to_mv` in both print loops
(lines 336 and 341): `PS5000A_RANGE::PS5000A_2V`. -/
def printRange : PS5000A_RANGE := .PS5000A_2V

/-- Arguments of a `ps5000aSetChannel` call. -/
structure SetChannelArgs where
  channel : Channel
  enabled : Int
  coupling : PS5000A_COUPLING
  range : PS5000A_RANGE
  analogueOffset : Int
deriving DecidableEq, Repr

/-- Arguments of the `ps5000aSetChannel` call for channel A (line 192). -/
def setChannelArgsA : SetChannelArgs :=
  ⟨.A, 1, .PS5000A_DC, .PS5000A_1V, 0⟩

/-- Arguments of the `ps5000aSetChannel` call for channel B (line 198). -/
def setChannelArgsB : SetChannelArgs :=
  ⟨.B, 1, .PS5000A_DC, .PS5000A_1V, 0⟩

/-- Arguments of the `ps5000aRunBlock` call (line 292). -/
structure RunBlockArgs where
  noOfPreTriggerSamples : Nat
  noOfPostTriggerSamples : Nat
  timebase : Nat
deriving DecidableEq, Repr

/-- `ps5000aRunBlock(handle, 10, NO_OF_SAMPLES - 11, TIMEBASE, ...)` (line 292). -/
def runBlockArgs : RunBlockArgs :=
  ⟨10, NO_OF_SAMPLES - 11, TIMEBASE⟩

/-- The `bufferLth` argument of both `ps5000aSetDataBuffer` calls
(lines 224 and 230), which is also the allocation size of both buffers
(lines 222-223). -/
def dataBufferLength : Nat := NO_OF_SAMPLES

/-- The sample count requested from `ps5000aGetValues`: `noSamples` is
initialised to `NO_OF_SAMPLES` before the call (line 324). -/
def getValuesRequested : Nat := NO_OF_SAMPLES

/-- The observable outcome of one program run: the process exit code, the event
trace, the two printed per-channel listings (sample index, raw code, millivolt
value; lines 335-341), and the polling-loop result when the loop ran. -/
structure RunResult where
  exitCode : Int
  trace : List Event
  printedA : List (Nat × Int × Int)
  printedB : List (Nat × Int × Int)
  pollRes : Option PollResult
deriving DecidableEq, Repr

/-- An error return before the polling loop: print the status and `return -1`. -/
def failResult (tr : List Event) : RunResult :=
  ⟨-1, tr, [], [], none⟩

/-- The repeated idiom `status = call(...); if (PICO_OK != status) { ...;
return -1; }`: record the call, bail out on any non-`PICO_OK` status, otherwise
continue. -/
def checkedCall (tr : List Event) (c : Call) (st : Nat)
    (k : List Event → RunResult) : RunResult :=
  if st ≠ PICO_OK then failResult (tr ++ [.call c st])
  else k (tr ++ [.call c st])

/-- Lines 290-355: `ps5000aRunBlock` has succeeded; run the polling loop, then
(on readiness) retrieve, print, free the buffers and close the unit. -/
def mainAfterRunBlock (d : Driver) (tr : List Event) : RunResult :=
  let pr := pollLoop d
  match pr.exit with
  | .errored => ⟨-1, tr ++ pr.trace, [], [], some pr⟩
  | .timedOut =>
    ⟨-1, tr ++ pr.trace ++ [.call .stop d.stopStatus, .call .closeUnit d.closeUnitStatus],
      [], [], some pr⟩
  | .ready =>
    if d.getValuesStatus ≠ PICO_OK then
      ⟨-1, tr ++ pr.trace ++ [.call .getValues d.getValuesStatus], [], [], some pr⟩
    else
      let printedA := (List.range d.getValuesCount).map
        (fun i => (i, d.bufferA i, adc_to_mv (d.bufferA i) printRange MAX_ADC))
      let printedB := (List.range d.getValuesCount).map
        (fun i => (i, d.bufferB i, adc_to_mv (d.bufferB i) printRange MAX_ADC))
      let tr3 := tr ++ pr.trace ++ [.call .getValues d.getValuesStatus] ++
        [.freeBufferA, .freeBufferB, .call .closeUnit d.closeUnitStatus]
      if d.closeUnitStatus ≠ PICO_OK then ⟨-1, tr3, printedA, printedB, some pr⟩
      else ⟨0, tr3, printedA, printedB, some pr⟩

/-- Lines 221-297: data buffers, timebase, trigger, signal generator, the stdin
confirmation gate (lines 279-288: proceed only when the token's first character
is `'s'`), and `ps5000aRunBlock`. -/
def mainAfterChannelSetup (d : Driver) (tr : List Event) : RunResult :=
  checkedCall tr (.setDataBuffer .A) (d.setDataBufferStatus .A) fun tr =>
  checkedCall tr (.setDataBuffer .B) (d.setDataBufferStatus .B) fun tr =>
  checkedCall tr .getTimebase d.getTimebaseStatus fun tr =>
  checkedCall tr .setSimpleTrigger d.setSimpleTriggerStatus fun tr =>
  checkedCall tr .setSigGenBuiltInV2 d.setSigGenStatus fun tr =>
  if d.input.head? ≠ some gateChar then failResult tr
  else
  checkedCall tr .runBlock d.runBlockStatus fun tr =>
  mainAfterRunBlock d tr

/-- The trace after open and (conditionally) the power-source change
(lines 173-183): `ps5000aChangePowerSource` is invoked exactly when open
returned `PICO_POWER_SUPPLY_NOT_CONNECTED`. -/
def openTrace (d : Driver) : List Event :=
  if d.openStatus = PICO_POWER_SUPPLY_NOT_CONNECTED then
    [.call .openUnit d.openStatus, .call .changePowerSource d.changePowerSourceStatus]
  else
    [.call .openUnit d.openStatus]

/-- The value of `status` at the check on line 185: the open status, overwritten
by the power-source-change status when the power remediation ran. -/
def statusAfterOpen (d : Driver) : Nat :=
  if d.openStatus = PICO_POWER_SUPPLY_NOT_CONNECTED then d.changePowerSourceStatus
  else d.openStatus

/-- The program entry point `main` (lines 162-356; the name `main` itself is reserved by Lean).  `usbPowered` is set exactly when open reported
`PICO_POWER_SUPPLY_NOT_CONNECTED` (lines 180-183), and channels C and D are
configured (disabled) only in that case (lines 205-219). -/
def mainRun (d : Driver) : RunResult :=
  if statusAfterOpen d ≠ PICO_OK then failResult (openTrace d)
  else
  checkedCall (openTrace d) (.setChannel .A) (d.setChannelStatus .A) fun tr =>
  checkedCall tr (.setChannel .B) (d.setChannelStatus .B) fun tr =>
  if d.openStatus = PICO_POWER_SUPPLY_NOT_CONNECTED then
    checkedCall tr (.setChannel .C) (d.setChannelStatus .C) fun tr =>
    checkedCall tr (.setChannel .D) (d.setChannelStatus .D) fun tr =>
    mainAfterChannelSetup d tr
  else
    mainAfterChannelSetup d tr

/-- A driver that answers `PICO_OK` everywhere, reports readiness at the first
poll, returns one sample of full-scale positive ADC code in buffer A, and whose
stdin token is `"s"`. -/
def dHappy : Driver where
  openStatus := PICO_OK
  changePowerSourceStatus := PICO_OK
  setChannelStatus := fun _ => PICO_OK
  setDataBufferStatus := fun _ => PICO_OK
  getTimebaseStatus := PICO_OK
  setSimpleTriggerStatus := PICO_OK
  setSigGenStatus := PICO_OK
  runBlockStatus := PICO_OK
  isReadyStatus := fun _ => PICO_OK
  isReadyFlag := fun _ => true
  getValuesStatus := PICO_OK
  getValuesCount := 1
  stopStatus := PICO_OK
  closeUnitStatus := PICO_OK
  bufferA := fun _ => 32767
  bufferB := fun _ => 0
  input := [gateChar]

/-- Like `dHappy` but the device only reports ready on the third poll. -/
def dPoll : Driver :=
  { dHappy with isReadyFlag := fun k => decide (2 ≤ k) }

/-- Like `dHappy` but the stdin token is `"x"`: the user declines. -/
def dDecline : Driver :=
  { dHappy with input := ['x'] }

/-- Like `dHappy` but `ps5000aSetChannel` fails for channel A with status 5. -/
def dChanFail : Driver :=
  { dHappy with setChannelStatus := fun c => match c with | .A => 5 | _ => PICO_OK }

/-- Like `dHappy` but the device never reports ready (so the polling loop times
out) and `ps5000aStop` fails with status 7. -/
def dStopFail : Driver :=
  { dHappy with isReadyFlag := fun _ => false, stopStatus := 7 }

/-- Like `dHappy` but open reports `PICO_POWER_SUPPLY_NOT_CONNECTED`, and the
power-source change succeeds. -/
def dPSNC : Driver :=
  { dHappy with openStatus := PICO_POWER_SUPPLY_NOT_CONNECTED }

/-- An event that does not witness an unhandled driver failure: a buffer
release, a call that returned `PICO_OK`, the power-not-connected status at open
(remediated, lines 180-183), or the `ps5000aStop` call (whose status the
timeout path ignores, line 312). -/
def okEvent (e : Event) : Prop :=
  match e with
  | .call c st =>
    st = PICO_OK ∨ (c = .openUnit ∧ st = PICO_POWER_SUPPLY_NOT_CONNECTED) ∨ c = .stop
  | _ => True

instance (e : Event) : Decidable (okEvent e) := by
  unfold okEvent
  cases e <;> infer_instance

/-- The fail-fast shape of a run: every driver call before the last event is an
`okEvent`, and either the run exited with -1 or every event is an `okEvent`. -/
def FailFastShape (res : RunResult) : Prop :=
  (∀ e ∈ res.trace.dropLast, okEvent e) ∧
  (res.exitCode = -1 ∨ ∀ e ∈ res.trace, okEvent e)

/-- The fixed linear order of setup driver calls (open through RunBlock): every
run's call sequence up to the polling loop is a sublist of this list. -/
def masterSetupList (d : Driver) : List Call :=
  (if d.openStatus = PICO_POWER_SUPPLY_NOT_CONNECTED then
    [.openUnit, .changePowerSource, .setChannel .A, .setChannel .B,
      .setChannel .C, .setChannel .D]
  else
    [.openUnit, .setChannel .A, .setChannel .B]) ++
  [.setDataBuffer .A, .setDataBuffer .B, .getTimebase, .setSimpleTrigger,
    .setSigGenBuiltInV2, .runBlock]

/-- The fixed linear order of driver calls the program can make in one run:
every run's call sequence is a sublist of this list. -/
def masterList (d : Driver) : List Call :=
  masterSetupList d ++
  (List.replicate (pollLoop d).trace.length .isReady ++
  [.stop, .getValues, .closeUnit])

/-- The event trace of a run that reached the polling loop after open reported
`PICO_POWER_SUPPLY_NOT_CONNECTED` (all four channels configured). -/
def setupEventsPSNC : List Event :=
  [.call .openUnit PICO_POWER_SUPPLY_NOT_CONNECTED, .call .changePowerSource PICO_OK,
   .call (.setChannel .A) PICO_OK, .call (.setChannel .B) PICO_OK,
   .call (.setChannel .C) PICO_OK, .call (.setChannel .D) PICO_OK,
   .call (.setDataBuffer .A) PICO_OK, .call (.setDataBuffer .B) PICO_OK,
   .call .getTimebase PICO_OK, .call .setSimpleTrigger PICO_OK,
   .call .setSigGenBuiltInV2 PICO_OK, .call .runBlock PICO_OK]

/-- The event trace of a run that reached the polling loop after a plain
`PICO_OK` open (channels A and B only). -/
def setupEventsOK : List Event :=
  [.call .openUnit PICO_OK,
   .call (.setChannel .A) PICO_OK, .call (.setChannel .B) PICO_OK,
   .call (.setDataBuffer .A) PICO_OK, .call (.setDataBuffer .B) PICO_OK,
   .call .getTimebase PICO_OK, .call .setSimpleTrigger PICO_OK,
   .call .setSigGenBuiltInV2 PICO_OK, .call .runBlock PICO_OK]

/-- Whether the run took the polling-loop timeout path (lines 311-317). -/
def timedOutRun (res : RunResult) : Bool :=
  match res.pollRes with
  | some r => match r.exit with | .timedOut => true | _ => false
  | none => false

/-- Whether the run contains a successful `ps5000aGetValues` call, i.e. sample
retrieval completed (lines 324-330). -/
def retrievedOK (res : RunResult) : Bool :=
  decide (Event.call .getValues PICO_OK ∈ res.trace)

/-- Specification of the polling loop started at iteration counter `k`: it
queried readiness at consecutive iterations starting at `k`, at least once; it
stopped exactly at the first iteration satisfying `stopCond`; the exit kind
matches which stopping condition fired (error status checked first, then the
ceiling, then readiness); and the final `time_acq` counts the iterations that
executed `Sleep(SLEEP_MS); time_acq++` (every iteration except an error or
timeout exit). -/
def PollSpec (d : Driver) (k : Nat) (res : PollResult) : Prop :=
  1 ≤ res.trace.length ∧
  res.trace = (List.range' k res.trace.length).map
    (fun j => Event.call .isReady (d.isReadyStatus j)) ∧
  stopCond d (k + res.trace.length - 1) ∧
  (∀ j, k ≤ j → j + 1 < k + res.trace.length → ¬ stopCond d j) ∧
  (res.exit = .errored ↔ d.isReadyStatus (k + res.trace.length - 1) ≠ PICO_OK) ∧
  (res.exit = .timedOut →
    TIMEOUT_STOP < k + res.trace.length - 1 ∧
    d.isReadyStatus (k + res.trace.length - 1) = PICO_OK) ∧
  (res.exit = .ready →
    d.isReadyFlag (k + res.trace.length - 1) = true ∧
    d.isReadyStatus (k + res.trace.length - 1) = PICO_OK ∧
    ¬ TIMEOUT_STOP < k + res.trace.length - 1) ∧
  res.time_acq =
    (match res.exit with
     | .ready => k + res.trace.length
     | .errored => k + res.trace.length - 1
     | .timedOut => k + res.trace.length - 1)

/-! Helper lemmas about the polling loop. -/

lemma pollLoopAux_errored (d : Driver) (k r : Nat) (h1 : d.isReadyStatus k ≠ PICO_OK) :
    pollLoopAux d k r = ⟨.errored, [.call .isReady (d.isReadyStatus k)], k⟩ := by
  rw [pollLoopAux.eq_def]
  simp [h1]

lemma pollLoopAux_timedOut (d : Driver) (k r : Nat) (h1 : d.isReadyStatus k = PICO_OK)
    (h2 : TIMEOUT_STOP < k) :
    pollLoopAux d k r = ⟨.timedOut, [.call .isReady (d.isReadyStatus k)], k⟩ := by
  rw [pollLoopAux.eq_def]
  simp [h1, h2]

lemma pollLoopAux_ready (d : Driver) (k r : Nat) (h1 : d.isReadyStatus k = PICO_OK)
    (h2 : ¬ TIMEOUT_STOP < k) (h3 : d.isReadyFlag k = true) :
    pollLoopAux d k r = ⟨.ready, [.call .isReady (d.isReadyStatus k)], k + 1⟩ := by
  rw [pollLoopAux.eq_def]
  simp [h1, h2, h3]

lemma pollLoopAux_step (d : Driver) (k r : Nat) (h1 : d.isReadyStatus k = PICO_OK)
    (h2 : ¬ TIMEOUT_STOP < k) (h3 : d.isReadyFlag k = false) :
    pollLoopAux d k (r + 1) =
      ⟨(pollLoopAux d (k + 1) r).exit,
        .call .isReady (d.isReadyStatus k) :: (pollLoopAux d (k + 1) r).trace,
        (pollLoopAux d (k + 1) r).time_acq⟩ := by
  rw [pollLoopAux.eq_def]
  simp [h1, h2, h3]

lemma pollLoopAux_spec (d : Driver) :
    ∀ r k, TIMEOUT_STOP < k + r → PollSpec d k (pollLoopAux d k r) := by
  intro r
  induction r with
  | zero =>
    intro k hk
    by_cases h1 : d.isReadyStatus k ≠ PICO_OK
    · rw [pollLoopAux_errored d k 0 h1]
      simp only [PollSpec]
      refine ⟨by simp, by simp [List.range'], ?_, ?_, by simp [h1], by simp, by simp, by simp⟩
      · simpa using Or.inl h1
      · intro j hj1 hj2
        simp at hj2
        exfalso
        omega
    · push_neg at h1
      have h2 : TIMEOUT_STOP < k := by omega
      rw [pollLoopAux_timedOut d k 0 h1 h2]
      simp only [PollSpec]
      refine ⟨by simp, by simp [List.range'], ?_, ?_, by simp [h1], by simp [h1, h2],
        by simp, by simp⟩
      · simpa using Or.inr (Or.inl h2)
      · intro j hj1 hj2
        simp at hj2
        exfalso
        omega
  | succ r ih =>
    intro k hk
    by_cases h1 : d.isReadyStatus k ≠ PICO_OK
    · rw [pollLoopAux_errored d k (r + 1) h1]
      simp only [PollSpec]
      refine ⟨by simp, by simp [List.range'], ?_, ?_, by simp [h1], by simp, by simp, by simp⟩
      · simpa using Or.inl h1
      · intro j hj1 hj2
        simp at hj2
        exfalso
        omega
    · push_neg at h1
      by_cases h2 : TIMEOUT_STOP < k
      · rw [pollLoopAux_timedOut d k (r + 1) h1 h2]
        simp only [PollSpec]
        refine ⟨by simp, by simp [List.range'], ?_, ?_, by simp [h1], by simp [h1, h2],
          by simp, by simp⟩
        · simpa using Or.inr (Or.inl h2)
        · intro j hj1 hj2
          simp at hj2
          exfalso
          omega
      · by_cases h3 : d.isReadyFlag k = true
        · rw [pollLoopAux_ready d k (r + 1) h1 h2 h3]
          simp only [PollSpec]
          refine ⟨by simp, by simp [List.range'], ?_, ?_, by simp [h1], by simp,
            by simp [h1, h2, h3], by simp⟩
          · simpa using Or.inr (Or.inr h3)
          · intro j hj1 hj2
            simp at hj2
            exfalso
            omega
        · have h3f : d.isReadyFlag k = false := by
            revert h3
            cases d.isReadyFlag k <;> simp
          rw [pollLoopAux_step d k r h1 h2 h3f]
          obtain ⟨p1, p2, p3, p4, p5, p6, p7, p8⟩ := ih (k + 1) (by omega)
          simp only [PollSpec] at *
          set rest := pollLoopAux d (k + 1) r with hrest
          have hidx : ∀ n, 1 ≤ n → k + (n + 1) - 1 = (k + 1) + n - 1 := by
            intro n hn
            omega
          refine ⟨by simp, ?_, ?_, ?_, ?_, ?_, ?_, ?_⟩
          · simp only [List.length_cons]
            rw [List.range'_succ, List.map_cons]
            rw [← p2]
          · simp only [List.length_cons]
            rw [hidx rest.trace.length p1]
            exact p3
          · intro j hj1 hj2
            simp only [List.length_cons] at hj2
            by_cases hjk : j = k
            · subst hjk
              intro hsc
              rcases hsc with h | h | h
              · exact h h1
              · exact h2 h
              · rw [h3f] at h
                cases h
            · exact p4 j (by omega) (by omega)
          · simp only [List.length_cons]
            rw [hidx rest.trace.length p1]
            exact p5
          · simp only [List.length_cons]
            rw [hidx rest.trace.length p1]
            exact p6
          · simp only [List.length_cons]
            rw [hidx rest.trace.length p1]
            exact p7
          · cases hex : rest.exit
            all_goals simp only [List.length_cons, hex] at p8 ⊢
            all_goals omega

lemma pollLoop_spec (d : Driver) : PollSpec d 0 (pollLoop d) := by
  have h := pollLoopAux_spec d (TIMEOUT_STOP + 1) 0 (by omega)
  simpa [pollLoop] using h

lemma pollLoop_trace_len_pos (d : Driver) : 1 ≤ (pollLoop d).trace.length :=
  (pollLoop_spec d).1

lemma pollLoop_trace_eq (d : Driver) :
    (pollLoop d).trace = (List.range (pollLoop d).trace.length).map
      (fun j => Event.call .isReady (d.isReadyStatus j)) := by
  have h := (pollLoop_spec d).2.1
  simpa [List.range_eq_range'] using h

/-- Every event of the polling loop's trace is a readiness-query call. -/
lemma pollLoop_trace_mem (d : Driver) :
    ∀ e ∈ (pollLoop d).trace, ∃ j, e = Event.call .isReady (d.isReadyStatus j) := by
  intro e he
  rw [pollLoop_trace_eq d] at he
  obtain ⟨j, _, rfl⟩ := List.mem_map.1 he
  exact ⟨j, rfl⟩

/-- The driver calls of the polling loop's trace: readiness queries only. -/
lemma pollLoop_calls (d : Driver) :
    callsOf (pollLoop d).trace = List.replicate (pollLoop d).trace.length Call.isReady := by
  conv_lhs => rw [pollLoop_trace_eq d]
  rw [callsOf, List.filterMap_map]
  have h : (Event.callOf ∘ fun j => Event.call Call.isReady (d.isReadyStatus j)) =
      fun _ => some Call.isReady := by
    funext j
    rfl
  rw [h]
  have hgen : ∀ l : List Nat,
      List.filterMap (fun _ => some Call.isReady) l = List.replicate l.length Call.isReady := by
    intro l
    induction l with
    | nil => simp
    | cons a l ihl => simp [ihl, List.replicate_succ]
  rw [hgen]
  simp

/-- Every poll event except possibly the last returned `PICO_OK`. -/
lemma pollLoop_dropLast_ok (d : Driver) :
    ∀ e ∈ (pollLoop d).trace.dropLast,
      ∃ j, e = Event.call .isReady (d.isReadyStatus j) ∧ d.isReadyStatus j = PICO_OK := by
  intro e he
  obtain ⟨i, hi, hget⟩ := List.mem_iff_getElem.1 he
  have hlen : (pollLoop d).trace.dropLast.length = (pollLoop d).trace.length - 1 := by
    simp
  rw [List.getElem_dropLast] at hget
  have hi2 : i < (pollLoop d).trace.length := by omega
  have htr := pollLoop_trace_eq d
  have hopt : (pollLoop d).trace[i]? = some e := by
    rw [List.getElem?_eq_getElem hi2, hget]
  have hmapped : (pollLoop d).trace[i]? =
      some (Event.call .isReady (d.isReadyStatus i)) := by
    conv_lhs => rw [htr]
    simp [hi2]
  rw [hopt] at hmapped
  refine ⟨i, Option.some.inj hmapped, ?_⟩
  have hmin := (pollLoop_spec d).2.2.2.1 i (by omega) (by omega)
  by_contra hne
  exact hmin (Or.inl hne)

/-- When the loop did not exit on an error status, every poll event returned
`PICO_OK`. -/
lemma pollLoop_all_ok_of_not_errored (d : Driver) (h : (pollLoop d).exit ≠ .errored) :
    ∀ e ∈ (pollLoop d).trace,
      ∃ j, e = Event.call .isReady (d.isReadyStatus j) ∧ d.isReadyStatus j = PICO_OK := by
  intro e he
  obtain ⟨i, hi, hget⟩ := List.mem_iff_getElem.1 he
  have htr := pollLoop_trace_eq d
  have hopt : (pollLoop d).trace[i]? = some e := by
    rw [List.getElem?_eq_getElem hi, hget]
  have hmapped : (pollLoop d).trace[i]? =
      some (Event.call .isReady (d.isReadyStatus i)) := by
    conv_lhs => rw [htr]
    simp [hi]
  rw [hopt] at hmapped
  refine ⟨i, Option.some.inj hmapped, ?_⟩
  by_cases hlast : i + 1 < (pollLoop d).trace.length
  · have hmin := (pollLoop_spec d).2.2.2.1 i (by omega) (by omega)
    by_contra hne
    exact hmin (Or.inl hne)
  · have hieq : i = 0 + (pollLoop d).trace.length - 1 := by omega
    have h5 := (pollLoop_spec d).2.2.2.2.1
    rw [← hieq] at h5
    by_contra hne
    exact h (h5.2 hne)

/-- On the `dStopFail` driver the loop always sees status `PICO_OK` and no
readiness, so it runs to the ceiling: 2002 queries, final counter 2001. -/
lemma pollLoopAux_dStopFail : ∀ r k, TIMEOUT_STOP < k + r → k ≤ TIMEOUT_STOP + 1 →
    pollLoopAux dStopFail k r =
      ⟨.timedOut, List.replicate (TIMEOUT_STOP + 2 - k) (.call .isReady PICO_OK),
        TIMEOUT_STOP + 1⟩ := by
  intro r
  induction r with
  | zero =>
    intro k h1 h2
    have hk : k = TIMEOUT_STOP + 1 := by omega
    subst hk
    have hone : TIMEOUT_STOP + 2 - (TIMEOUT_STOP + 1) = 1 := by omega
    rw [pollLoopAux_timedOut dStopFail _ 0 (by rfl) (by omega), hone]
    rfl
  | succ r ih =>
    intro k h1 h2
    by_cases hk : TIMEOUT_STOP < k
    · have hk2 : k = TIMEOUT_STOP + 1 := by omega
      subst hk2
      have hone : TIMEOUT_STOP + 2 - (TIMEOUT_STOP + 1) = 1 := by omega
      rw [pollLoopAux_timedOut dStopFail _ (r + 1) (by rfl) (by omega), hone]
      rfl
    · rw [pollLoopAux_step dStopFail k r (by rfl) hk (by rfl)]
      rw [ih (k + 1) (by omega) (by omega)]
      have hrepl : TIMEOUT_STOP + 2 - k = (TIMEOUT_STOP + 2 - (k + 1)) + 1 := by omega
      rw [hrepl, List.replicate_succ]
      rfl

lemma pollLoop_dStopFail :
    pollLoop dStopFail =
      ⟨.timedOut, List.replicate 2002 (.call .isReady PICO_OK), 2001⟩ := by
  rw [pollLoop, pollLoopAux_dStopFail (TIMEOUT_STOP + 1) 0 (by omega) (by omega)]
  rfl

/-! Helper lemmas about `mainRun`. -/

lemma mem_callsOf {c : Call} {l : List Event} : c ∈ callsOf l ↔ ∃ st, Event.call c st ∈ l := by
  unfold callsOf
  rw [List.mem_filterMap]
  constructor
  · rintro ⟨e, he, hco⟩
    cases e with
    | call c2 st =>
      simp only [Event.callOf, Option.some.injEq] at hco
      subst hco
      exact ⟨st, he⟩
    | freeBufferA => simp [Event.callOf] at hco
    | freeBufferB => simp [Event.callOf] at hco
  · rintro ⟨st, hst⟩
    exact ⟨.call c st, hst, rfl⟩

lemma count_callsOf_eq_zero {c : Call} {l : List Event}
    (h : ∀ st, Event.call c st ∉ l) : (callsOf l).count c = 0 := by
  rw [List.count_eq_zero]
  intro hmem
  obtain ⟨st, hst⟩ := mem_callsOf.1 hmem
  exact h st hst

/-- If `a` occurs in neither `X` nor `Y`, the decomposition of `X ++ a :: Y`
around `a` is unique. -/
lemma unique_middle {α : Type} [DecidableEq α] {a : α} :
    ∀ (X : List α) (pre Y post : List α), a ∉ X → a ∉ Y →
      X ++ a :: Y = pre ++ a :: post → pre = X ∧ post = Y := by
  intro X
  induction X with
  | nil =>
    intro pre Y post hX hY heq
    cases pre with
    | nil =>
      simp only [List.nil_append, List.cons.injEq] at heq
      exact ⟨rfl, heq.2.symm⟩
    | cons p ps =>
      simp only [List.nil_append, List.cons_append, List.cons.injEq] at heq
      exfalso
      apply hY
      rw [heq.2]
      exact List.mem_append_right ps (List.mem_cons_self a post)
  | cons x xs ih =>
    intro pre Y post hX hY heq
    cases pre with
    | nil =>
      simp only [List.cons_append, List.nil_append, List.cons.injEq] at heq
      exfalso
      exact hX (heq.1 ▸ List.mem_cons_self x xs)
    | cons p ps =>
      simp only [List.cons_append, List.cons.injEq] at heq
      obtain ⟨h1, h2⟩ := ih ps Y post (fun h => hX (List.mem_cons_of_mem x h)) hY heq.2
      exact ⟨by rw [heq.1, h1], h2⟩

/-- Elements of `(l₁ ++ l₂).dropLast` come from `l₁` or from `l₂.dropLast`. -/
lemma mem_dropLast_append {α : Type} {e : α} {l1 l2 : List α}
    (h : e ∈ (l1 ++ l2).dropLast) : e ∈ l1 ∨ e ∈ l2.dropLast := by
  cases hl2 : l2 with
  | nil =>
    subst hl2
    simp only [List.append_nil] at h
    exact Or.inl (List.dropLast_sublist l1 |>.subset h)
  | cons x xs =>
    rw [hl2] at h
    rw [List.dropLast_append_of_ne_nil _ (by simp)] at h
    rcases List.mem_append.1 h with h | h
    · exact Or.inl h
    · exact Or.inr (hl2 ▸ h)

lemma ARB_errored (d : Driver) (tr : List Event) (h : (pollLoop d).exit = .errored) :
    mainAfterRunBlock d tr = ⟨-1, tr ++ (pollLoop d).trace, [], [], some (pollLoop d)⟩ := by
  simp only [mainAfterRunBlock, h]

lemma ARB_timedOut (d : Driver) (tr : List Event) (h : (pollLoop d).exit = .timedOut) :
    mainAfterRunBlock d tr =
      ⟨-1, tr ++ (pollLoop d).trace ++
        [.call .stop d.stopStatus, .call .closeUnit d.closeUnitStatus],
        [], [], some (pollLoop d)⟩ := by
  simp only [mainAfterRunBlock, h]

lemma ARB_gvFail (d : Driver) (tr : List Event) (h : (pollLoop d).exit = .ready)
    (hg : d.getValuesStatus ≠ PICO_OK) :
    mainAfterRunBlock d tr =
      ⟨-1, tr ++ (pollLoop d).trace ++ [.call .getValues d.getValuesStatus],
        [], [], some (pollLoop d)⟩ := by
  simp only [mainAfterRunBlock, h]
  rw [if_pos hg]

lemma ARB_gvOK (d : Driver) (tr : List Event) (h : (pollLoop d).exit = .ready)
    (hg : d.getValuesStatus = PICO_OK) :
    mainAfterRunBlock d tr =
      ⟨if d.closeUnitStatus ≠ PICO_OK then -1 else 0,
        tr ++ (pollLoop d).trace ++ [.call .getValues PICO_OK] ++
          [.freeBufferA, .freeBufferB, .call .closeUnit d.closeUnitStatus],
        (List.range d.getValuesCount).map
          (fun i => (i, d.bufferA i, adc_to_mv (d.bufferA i) printRange MAX_ADC)),
        (List.range d.getValuesCount).map
          (fun i => (i, d.bufferB i, adc_to_mv (d.bufferB i) printRange MAX_ADC)),
        some (pollLoop d)⟩ := by
  simp only [mainAfterRunBlock, h, hg]
  split_ifs <;> simp_all

lemma ARB_pollRes (d : Driver) (tr : List Event) :
    (mainAfterRunBlock d tr).pollRes = some (pollLoop d) := by
  rcases hex : (pollLoop d).exit
  · by_cases hg : d.getValuesStatus = PICO_OK
    · rw [ARB_gvOK d tr hex hg]
    · rw [ARB_gvFail d tr hex hg]
  · rw [ARB_errored d tr hex]
  · rw [ARB_timedOut d tr hex]

/-- Case analysis of the buffer-to-RunBlock stage: either some checked call (or
the stdin gate) fails, appending a strictly ordered block of call events whose
last entry is the failing call, or all succeed and the run proceeds to the
polling loop. -/
lemma ACS_split (d : Driver) (tr : List Event) :
    (∃ mid, mainAfterChannelSetup d tr = failResult (tr ++ mid) ∧
      (callsOf mid).Sublist [.setDataBuffer .A, .setDataBuffer .B, .getTimebase,
        .setSimpleTrigger, .setSigGenBuiltInV2, .runBlock] ∧
      Event.freeBufferA ∉ mid ∧ Event.freeBufferB ∉ mid ∧
      (∀ e ∈ mid.dropLast, okEvent e))
    ∨ (mainAfterChannelSetup d tr = mainAfterRunBlock d
        (tr ++ [.call (.setDataBuffer .A) PICO_OK, .call (.setDataBuffer .B) PICO_OK,
          .call .getTimebase PICO_OK, .call .setSimpleTrigger PICO_OK,
          .call .setSigGenBuiltInV2 PICO_OK, .call .runBlock PICO_OK]) ∧
        d.setDataBufferStatus .A = PICO_OK ∧ d.setDataBufferStatus .B = PICO_OK ∧
        d.getTimebaseStatus = PICO_OK ∧ d.setSimpleTriggerStatus = PICO_OK ∧
        d.setSigGenStatus = PICO_OK ∧ d.input.head? = some gateChar ∧
        d.runBlockStatus = PICO_OK) := by
  by_cases h1 : d.setDataBufferStatus .A = PICO_OK
  case neg =>
    left
    refine ⟨[.call (.setDataBuffer .A) (d.setDataBufferStatus .A)], ?_, ?_, ?_, ?_, ?_⟩
    · simp [mainAfterChannelSetup, checkedCall, failResult, h1]
    · simp only [callsOf, List.filterMap, Event.callOf]
      decide
    · simp
    · simp
    · simp
  all_goals by_cases h2 : d.setDataBufferStatus .B = PICO_OK
  case neg =>
    left
    refine ⟨[.call (.setDataBuffer .A) PICO_OK,
      .call (.setDataBuffer .B) (d.setDataBufferStatus .B)], ?_, ?_, ?_, ?_, ?_⟩
    · simp [mainAfterChannelSetup, checkedCall, failResult, h1, h2]
    · simp only [callsOf, List.filterMap, Event.callOf]
      decide
    · simp
    · simp
    · simp [okEvent]
  all_goals by_cases h3 : d.getTimebaseStatus = PICO_OK
  case neg =>
    left
    refine ⟨[.call (.setDataBuffer .A) PICO_OK, .call (.setDataBuffer .B) PICO_OK,
      .call .getTimebase d.getTimebaseStatus], ?_, ?_, ?_, ?_, ?_⟩
    · simp [mainAfterChannelSetup, checkedCall, failResult, h1, h2, h3]
    · simp only [callsOf, List.filterMap, Event.callOf]
      decide
    · simp
    · simp
    · simp [okEvent]
  all_goals by_cases h4 : d.setSimpleTriggerStatus = PICO_OK
  case neg =>
    left
    refine ⟨[.call (.setDataBuffer .A) PICO_OK, .call (.setDataBuffer .B) PICO_OK,
      .call .getTimebase PICO_OK, .call .setSimpleTrigger d.setSimpleTriggerStatus],
      ?_, ?_, ?_, ?_, ?_⟩
    · simp [mainAfterChannelSetup, checkedCall, failResult, h1, h2, h3, h4]
    · simp only [callsOf, List.filterMap, Event.callOf]
      decide
    · simp
    · simp
    · simp [okEvent]
  all_goals by_cases h5 : d.setSigGenStatus = PICO_OK
  case neg =>
    left
    refine ⟨[.call (.setDataBuffer .A) PICO_OK, .call (.setDataBuffer .B) PICO_OK,
      .call .getTimebase PICO_OK, .call .setSimpleTrigger PICO_OK,
      .call .setSigGenBuiltInV2 d.setSigGenStatus], ?_, ?_, ?_, ?_, ?_⟩
    · simp [mainAfterChannelSetup, checkedCall, failResult, h1, h2, h3, h4, h5]
    · simp only [callsOf, List.filterMap, Event.callOf]
      decide
    · simp
    · simp
    · simp [okEvent]
  all_goals by_cases h6 : d.input.head? = some gateChar
  case neg =>
    left
    refine ⟨[.call (.setDataBuffer .A) PICO_OK, .call (.setDataBuffer .B) PICO_OK,
      .call .getTimebase PICO_OK, .call .setSimpleTrigger PICO_OK,
      .call .setSigGenBuiltInV2 PICO_OK], ?_, ?_, ?_, ?_, ?_⟩
    · simp [mainAfterChannelSetup, checkedCall, failResult, h1, h2, h3, h4, h5, h6]
    · simp only [callsOf, List.filterMap, Event.callOf]
      decide
    · simp
    · simp
    · simp [okEvent]
  all_goals by_cases h7 : d.runBlockStatus = PICO_OK
  case neg =>
    left
    refine ⟨[.call (.setDataBuffer .A) PICO_OK, .call (.setDataBuffer .B) PICO_OK,
      .call .getTimebase PICO_OK, .call .setSimpleTrigger PICO_OK,
      .call .setSigGenBuiltInV2 PICO_OK, .call .runBlock d.runBlockStatus],
      ?_, ?_, ?_, ?_, ?_⟩
    · simp [mainAfterChannelSetup, checkedCall, failResult, h1, h2, h3, h4, h5, h6, h7]
    · simp only [callsOf, List.filterMap, Event.callOf]
      decide
    · simp
    · simp
    · simp [okEvent]
  right
  refine ⟨?_, h1, h2, h3, h4, h5, h6, h7⟩
  simp [mainAfterChannelSetup, checkedCall, h1, h2, h3, h4, h5, h6, h7]

/-- Case analysis of a whole run: either it fails at a checked setup call or
the stdin gate (exit -1, trace of setup calls ending at the failing call, no
buffer events), or it reaches the polling loop with a fully successful setup
trace, explicit for each of the two power modes. -/
lemma mainRun_split (d : Driver) :
    (∃ tr, mainRun d = failResult tr ∧
      (callsOf tr).Sublist (masterSetupList d) ∧
      (∀ e ∈ tr.dropLast, okEvent e) ∧
      Event.freeBufferA ∉ tr ∧ Event.freeBufferB ∉ tr ∧
      (∃ s, tr = openTrace d ++ s))
    ∨ (∃ tr, mainRun d = mainAfterRunBlock d tr ∧
        ((d.openStatus = PICO_POWER_SUPPLY_NOT_CONNECTED ∧ tr = setupEventsPSNC) ∨
         (d.openStatus = PICO_OK ∧ tr = setupEventsOK))) := by
  have hliftPSNC : ∀ head : List Event,
      (∀ e ∈ head, okEvent e) →
      (callsOf head = [.openUnit, .changePowerSource, .setChannel .A, .setChannel .B,
        .setChannel .C, .setChannel .D]) →
      Event.freeBufferA ∉ head → Event.freeBufferB ∉ head →
      d.openStatus = PICO_POWER_SUPPLY_NOT_CONNECTED →
      (∃ s, head = openTrace d ++ s) →
      (∃ mid, mainAfterChannelSetup d head = failResult (head ++ mid) ∧
        (callsOf mid).Sublist [.setDataBuffer .A, .setDataBuffer .B, .getTimebase,
          .setSimpleTrigger, .setSigGenBuiltInV2, .runBlock] ∧
        Event.freeBufferA ∉ mid ∧ Event.freeBufferB ∉ mid ∧
        (∀ e ∈ mid.dropLast, okEvent e)) →
      (∃ tr, mainAfterChannelSetup d head = failResult tr ∧
        (callsOf tr).Sublist (masterSetupList d) ∧
        (∀ e ∈ tr.dropLast, okEvent e) ∧
        Event.freeBufferA ∉ tr ∧ Event.freeBufferB ∉ tr ∧
        (∃ s, tr = openTrace d ++ s)) := by
    intro head hok hcalls hfA hfB hpw hopre hleft
    obtain ⟨mid, heqf, hsub, hmA, hmB, hmok⟩ := hleft
    refine ⟨head ++ mid, heqf, ?_, ?_, ?_, ?_, ?_⟩
    · rw [callsOf, List.filterMap_append, ← callsOf, ← callsOf, hcalls, masterSetupList,
        if_pos hpw]
      exact List.Sublist.append (List.Sublist.refl _) hsub
    · intro e he
      rcases mem_dropLast_append he with h | h
      · exact hok e h
      · exact hmok e h
    · simp [hfA, hmA]
    · simp [hfB, hmB]
    · obtain ⟨s, hs⟩ := hopre
      exact ⟨s ++ mid, by rw [hs, List.append_assoc]⟩
  have hliftOK : ∀ head : List Event,
      (∀ e ∈ head, okEvent e) →
      (callsOf head = [.openUnit, .setChannel .A, .setChannel .B]) →
      Event.freeBufferA ∉ head → Event.freeBufferB ∉ head →
      ¬ d.openStatus = PICO_POWER_SUPPLY_NOT_CONNECTED →
      (∃ s, head = openTrace d ++ s) →
      (∃ mid, mainAfterChannelSetup d head = failResult (head ++ mid) ∧
        (callsOf mid).Sublist [.setDataBuffer .A, .setDataBuffer .B, .getTimebase,
          .setSimpleTrigger, .setSigGenBuiltInV2, .runBlock] ∧
        Event.freeBufferA ∉ mid ∧ Event.freeBufferB ∉ mid ∧
        (∀ e ∈ mid.dropLast, okEvent e)) →
      (∃ tr, mainAfterChannelSetup d head = failResult tr ∧
        (callsOf tr).Sublist (masterSetupList d) ∧
        (∀ e ∈ tr.dropLast, okEvent e) ∧
        Event.freeBufferA ∉ tr ∧ Event.freeBufferB ∉ tr ∧
        (∃ s, tr = openTrace d ++ s)) := by
    intro head hok hcalls hfA hfB hpw hopre hleft
    obtain ⟨mid, heqf, hsub, hmA, hmB, hmok⟩ := hleft
    refine ⟨head ++ mid, heqf, ?_, ?_, ?_, ?_, ?_⟩
    · rw [callsOf, List.filterMap_append, ← callsOf, ← callsOf, hcalls, masterSetupList,
        if_neg hpw]
      exact List.Sublist.append (List.Sublist.refl _) hsub
    · intro e he
      rcases mem_dropLast_append he with h | h
      · exact hok e h
      · exact hmok e h
    · simp [hfA, hmA]
    · simp [hfB, hmB]
    · obtain ⟨s, hs⟩ := hopre
      exact ⟨s ++ mid, by rw [hs, List.append_assoc]⟩
  by_cases hpw : d.openStatus = PICO_POWER_SUPPLY_NOT_CONNECTED
  · by_cases h0 : d.changePowerSourceStatus = PICO_OK
    · by_cases hA : d.setChannelStatus .A = PICO_OK
      · by_cases hB : d.setChannelStatus .B = PICO_OK
        · by_cases hC : d.setChannelStatus .C = PICO_OK
          · by_cases hD : d.setChannelStatus .D = PICO_OK
            · have heq : mainRun d = mainAfterChannelSetup d
                  [.call .openUnit PICO_POWER_SUPPLY_NOT_CONNECTED,
                   .call .changePowerSource PICO_OK,
                   .call (.setChannel .A) PICO_OK, .call (.setChannel .B) PICO_OK,
                   .call (.setChannel .C) PICO_OK, .call (.setChannel .D) PICO_OK] := by
                simp [mainRun, checkedCall, statusAfterOpen, openTrace, hpw, h0, hA, hB, hC, hD]
              rw [heq]
              rcases ACS_split d _ with hleft | ⟨heq2, _h1, _h2, _h3, _h4, _h5, _h6, _h7⟩
              · left
                refine hliftPSNC _ ?_ ?_ ?_ ?_ hpw ?_ hleft
                · simp [okEvent]
                · simp [callsOf, Event.callOf]
                · simp
                · simp
                · exact ⟨[.call (.setChannel .A) PICO_OK, .call (.setChannel .B) PICO_OK,
                    .call (.setChannel .C) PICO_OK, .call (.setChannel .D) PICO_OK],
                    by simp [openTrace, hpw, h0]⟩
              · right
                exact ⟨_, heq2, Or.inl ⟨hpw, rfl⟩⟩
            · left
              refine ⟨[.call .openUnit PICO_POWER_SUPPLY_NOT_CONNECTED,
                .call .changePowerSource PICO_OK,
                .call (.setChannel .A) PICO_OK, .call (.setChannel .B) PICO_OK,
                .call (.setChannel .C) PICO_OK,
                .call (.setChannel .D) (d.setChannelStatus .D)], ?_, ?_, ?_, ?_, ?_, ?_⟩
              · simp [mainRun, checkedCall, failResult, statusAfterOpen, openTrace, hpw, h0,
                  hA, hB, hC, hD]
              · rw [masterSetupList, if_pos hpw]
                simp only [callsOf, List.filterMap, Event.callOf]
                decide
              · simp [okEvent, hpw]
              · simp
              · simp
              · exact ⟨[.call (.setChannel .A) PICO_OK, .call (.setChannel .B) PICO_OK,
                  .call (.setChannel .C) PICO_OK,
                  .call (.setChannel .D) (d.setChannelStatus .D)],
                  by simp [openTrace, hpw, h0]⟩
          · left
            refine ⟨[.call .openUnit PICO_POWER_SUPPLY_NOT_CONNECTED,
              .call .changePowerSource PICO_OK,
              .call (.setChannel .A) PICO_OK, .call (.setChannel .B) PICO_OK,
              .call (.setChannel .C) (d.setChannelStatus .C)], ?_, ?_, ?_, ?_, ?_, ?_⟩
            · simp [mainRun, checkedCall, failResult, statusAfterOpen, openTrace, hpw, h0,
                hA, hB, hC]
            · rw [masterSetupList, if_pos hpw]
              simp only [callsOf, List.filterMap, Event.callOf]
              decide
            · simp [okEvent, hpw]
            · simp
            · simp
            · exact ⟨[.call (.setChannel .A) PICO_OK, .call (.setChannel .B) PICO_OK,
                .call (.setChannel .C) (d.setChannelStatus .C)],
                by simp [openTrace, hpw, h0]⟩
        · left
          refine ⟨[.call .openUnit PICO_POWER_SUPPLY_NOT_CONNECTED,
            .call .changePowerSource PICO_OK,
            .call (.setChannel .A) PICO_OK,
            .call (.setChannel .B) (d.setChannelStatus .B)], ?_, ?_, ?_, ?_, ?_, ?_⟩
          · simp [mainRun, checkedCall, failResult, statusAfterOpen, openTrace, hpw, h0, hA, hB]
          · rw [masterSetupList, if_pos hpw]
            simp only [callsOf, List.filterMap, Event.callOf]
            decide
          · simp [okEvent, hpw]
          · simp
          · simp
          · exact ⟨[.call (.setChannel .A) PICO_OK,
              .call (.setChannel .B) (d.setChannelStatus .B)],
              by simp [openTrace, hpw, h0]⟩
      · left
        refine ⟨[.call .openUnit PICO_POWER_SUPPLY_NOT_CONNECTED,
          .call .changePowerSource PICO_OK,
          .call (.setChannel .A) (d.setChannelStatus .A)], ?_, ?_, ?_, ?_, ?_, ?_⟩
        · simp [mainRun, checkedCall, failResult, statusAfterOpen, openTrace, hpw, h0, hA]
        · rw [masterSetupList, if_pos hpw]
          simp only [callsOf, List.filterMap, Event.callOf]
          decide
        · simp [okEvent, hpw]
        · simp
        · simp
        · exact ⟨[.call (.setChannel .A) (d.setChannelStatus .A)],
            by simp [openTrace, hpw, h0]⟩
    · left
      refine ⟨[.call .openUnit PICO_POWER_SUPPLY_NOT_CONNECTED,
        .call .changePowerSource d.changePowerSourceStatus], ?_, ?_, ?_, ?_, ?_, ?_⟩
      · simp [mainRun, checkedCall, failResult, statusAfterOpen, openTrace, hpw, h0]
      · rw [masterSetupList, if_pos hpw]
        simp only [callsOf, List.filterMap, Event.callOf]
        decide
      · simp [okEvent, hpw]
      · simp
      · simp
      · exact ⟨[], by simp [openTrace, hpw]⟩
  · have hne : PICO_OK ≠ PICO_POWER_SUPPLY_NOT_CONNECTED := by decide
    by_cases h0 : d.openStatus = PICO_OK
    · by_cases hA : d.setChannelStatus .A = PICO_OK
      · by_cases hB : d.setChannelStatus .B = PICO_OK
        · have heq : mainRun d = mainAfterChannelSetup d
              [.call .openUnit PICO_OK,
               .call (.setChannel .A) PICO_OK, .call (.setChannel .B) PICO_OK] := by
            simp [mainRun, checkedCall, statusAfterOpen, openTrace, hpw, h0, hA, hB, hne]
          rw [heq]
          rcases ACS_split d _ with hleft | ⟨heq2, _h1, _h2, _h3, _h4, _h5, _h6, _h7⟩
          · left
            refine hliftOK _ ?_ ?_ ?_ ?_ hpw ?_ hleft
            · simp [okEvent]
            · simp [callsOf, Event.callOf]
            · simp
            · simp
            · exact ⟨[.call (.setChannel .A) PICO_OK, .call (.setChannel .B) PICO_OK],
                by simp [openTrace, hpw, h0, hne]⟩
          · right
            exact ⟨_, heq2, Or.inr ⟨h0, rfl⟩⟩
        · left
          refine ⟨[.call .openUnit PICO_OK, .call (.setChannel .A) PICO_OK,
            .call (.setChannel .B) (d.setChannelStatus .B)], ?_, ?_, ?_, ?_, ?_, ?_⟩
          · simp [mainRun, checkedCall, failResult, statusAfterOpen, openTrace, hpw, h0, hA,
              hB, hne]
          · rw [masterSetupList, if_neg hpw]
            simp only [callsOf, List.filterMap, Event.callOf]
            decide
          · simp [okEvent]
          · simp
          · simp
          · exact ⟨[.call (.setChannel .A) PICO_OK,
              .call (.setChannel .B) (d.setChannelStatus .B)],
              by simp [openTrace, hpw, h0, hne]⟩
      · left
        refine ⟨[.call .openUnit PICO_OK,
          .call (.setChannel .A) (d.setChannelStatus .A)], ?_, ?_, ?_, ?_, ?_, ?_⟩
        · simp [mainRun, checkedCall, failResult, statusAfterOpen, openTrace, hpw, h0, hA, hne]
        · rw [masterSetupList, if_neg hpw]
          simp only [callsOf, List.filterMap, Event.callOf]
          decide
        · simp [okEvent]
        · simp
        · simp
        · exact ⟨[.call (.setChannel .A) (d.setChannelStatus .A)],
            by simp [openTrace, hpw, h0, hne]⟩
    · left
      refine ⟨[.call .openUnit d.openStatus], ?_, ?_, ?_, ?_, ?_, ?_⟩
      · simp [mainRun, checkedCall, failResult, statusAfterOpen, openTrace, hpw, h0]
      · rw [masterSetupList, if_neg hpw]
        simp only [callsOf, List.filterMap, Event.callOf]
        decide
      · simp
      · simp
      · simp
      · exact ⟨[], by simp [openTrace, hpw]⟩

lemma mainRun_pollRes_eq (d : Driver) (r : PollResult)
    (h : (mainRun d).pollRes = some r) : r = pollLoop d := by
  rcases mainRun_split d with ⟨tr, heq, _⟩ | ⟨tr, heq, _⟩
  · rw [heq] at h
    simp [failResult] at h
  · rw [heq, ARB_pollRes] at h
    exact (Option.some.inj h).symm

lemma not_call_in_poll (d : Driver) {c : Call} (hc : c ≠ .isReady) (st : Nat) :
    Event.call c st ∉ (pollLoop d).trace := by
  intro hm
  obtain ⟨j, hj⟩ := pollLoop_trace_mem d _ hm
  rw [Event.call.injEq] at hj
  exact hc hj.1

lemma freeA_not_in_poll (d : Driver) : Event.freeBufferA ∉ (pollLoop d).trace := by
  intro hm
  obtain ⟨j, hj⟩ := pollLoop_trace_mem d _ hm
  cases hj

lemma freeB_not_in_poll (d : Driver) : Event.freeBufferB ∉ (pollLoop d).trace := by
  intro hm
  obtain ⟨j, hj⟩ := pollLoop_trace_mem d _ hm
  cases hj

/-! The claims. -/

/-- Claim C10: every run arms the block capture with 10 pre-trigger and
`NO_OF_SAMPLES - 11 = 89` post-trigger samples, 99 in total, one fewer than the
`NO_OF_SAMPLES = 100` samples the data buffers are registered for and the
retrieval call requests. -/
theorem runBlock_requests_99_of_100_samples :
    runBlockArgs.noOfPreTriggerSamples = 10 ∧
    runBlockArgs.noOfPostTriggerSamples = NO_OF_SAMPLES - 11 ∧
    runBlockArgs.noOfPostTriggerSamples = 89 ∧
    runBlockArgs.noOfPreTriggerSamples + runBlockArgs.noOfPostTriggerSamples = 99 ∧
    dataBufferLength = NO_OF_SAMPLES ∧
    getValuesRequested = NO_OF_SAMPLES ∧
    NO_OF_SAMPLES = 100 ∧
    runBlockArgs.noOfPreTriggerSamples + runBlockArgs.noOfPostTriggerSamples + 1 =
      NO_OF_SAMPLES := by
  decide

/-- Claim C2: in the post-RunBlock polling loop the readiness query is issued at
least once, at consecutive iteration-counter values starting from 0; the loop
stops querying exactly at the first iteration at which the query returns an
error status, the counter exceeds `TIMEOUT_STOP`, or readiness is reported; and
the final counter value equals the number of iterations that executed
`Sleep(SLEEP_MS); time_acq++` (every iteration except an error or timeout
exit). -/
theorem polling_loop_queries_until_first_stop (d : Driver) (r : PollResult)
    (h : (mainRun d).pollRes = some r) :
    1 ≤ r.trace.length ∧
    r.trace = (List.range r.trace.length).map
      (fun j => Event.call .isReady (d.isReadyStatus j)) ∧
    stopCond d (r.trace.length - 1) ∧
    (∀ j, j + 1 < r.trace.length → ¬ stopCond d j) ∧
    r.time_acq = (match r.exit with
      | .ready => r.trace.length
      | .errored => r.trace.length - 1
      | .timedOut => r.trace.length - 1) ∧
    SLEEP_MS = 1 := by
  obtain rfl : r = pollLoop d := mainRun_pollRes_eq d r h
  obtain ⟨p1, p2, p3, p4, p5, p6, p7, p8⟩ := pollLoop_spec d
  refine ⟨p1, ?_, ?_, ?_, ?_, rfl⟩
  · simpa [List.range_eq_range'] using p2
  · simpa using p3
  · intro j hj
    exact p4 j (by omega) (by omega)
  · simpa using p8

theorem polling_loop_queries_until_first_stop_witness :
    1 ≤ (pollLoop dPoll).trace.length ∧
    stopCond dPoll ((pollLoop dPoll).trace.length - 1) ∧
    ¬ stopCond dPoll 0 ∧ ¬ stopCond dPoll 1 := by
  have h := polling_loop_queries_until_first_stop dPoll (pollLoop dPoll) (by decide)
  exact ⟨h.1, h.2.2.1, h.2.2.2.1 0 (by decide), h.2.2.2.1 1 (by decide)⟩

/-- Claim C3: when the polling loop exceeds its ceiling, the program invokes
stop and then close, in that order, as the final two driver calls before
reporting failure and returning -1; the sample buffers are never read (nothing
is printed, no retrieval happens) and they are not freed on this path. -/
theorem timeout_stops_then_closes (d : Driver) (r : PollResult)
    (h : (mainRun d).pollRes = some r) (hto : r.exit = .timedOut) :
    List.IsSuffix [Event.call .stop d.stopStatus, Event.call .closeUnit d.closeUnitStatus]
      (mainRun d).trace ∧
    (mainRun d).exitCode = -1 ∧
    (mainRun d).printedA = [] ∧ (mainRun d).printedB = [] ∧
    Call.getValues ∉ callsOf (mainRun d).trace ∧
    Event.freeBufferA ∉ (mainRun d).trace ∧ Event.freeBufferB ∉ (mainRun d).trace := by
  obtain rfl : r = pollLoop d := mainRun_pollRes_eq d r h
  rcases mainRun_split d with ⟨tr, heq, _⟩ | ⟨tr, heq, htr⟩
  · rw [heq] at h
    simp [failResult] at h
  · rw [heq, ARB_timedOut d tr hto]
    have htrcalls : ∀ st, Event.call .getValues st ∉ tr := by
      rcases htr with ⟨_, rfl⟩ | ⟨_, rfl⟩ <;> intro st <;> simp [setupEventsPSNC, setupEventsOK]
    have htrfA : Event.freeBufferA ∉ tr := by
      rcases htr with ⟨_, rfl⟩ | ⟨_, rfl⟩ <;> simp [setupEventsPSNC, setupEventsOK]
    have htrfB : Event.freeBufferB ∉ tr := by
      rcases htr with ⟨_, rfl⟩ | ⟨_, rfl⟩ <;> simp [setupEventsPSNC, setupEventsOK]
    refine ⟨⟨tr ++ (pollLoop d).trace, by simp⟩, rfl, rfl, rfl, ?_, ?_, ?_⟩
    · intro hmem
      obtain ⟨st, hst⟩ := mem_callsOf.1 hmem
      simp only [List.mem_append, List.mem_cons, List.not_mem_nil, or_false] at hst
      rcases hst with (hst | hst) | hst | hst
      · exact htrcalls st hst
      · exact not_call_in_poll d (by decide) st hst
      · cases hst
      · cases hst
    · intro hmem
      simp only [List.mem_append, List.mem_cons, List.not_mem_nil, or_false] at hmem
      rcases hmem with (hmem | hmem) | hmem | hmem
      · exact htrfA hmem
      · exact freeA_not_in_poll d hmem
      · cases hmem
      · cases hmem
    · intro hmem
      simp only [List.mem_append, List.mem_cons, List.not_mem_nil, or_false] at hmem
      rcases hmem with (hmem | hmem) | hmem | hmem
      · exact htrfB hmem
      · exact freeB_not_in_poll d hmem
      · cases hmem
      · cases hmem

lemma mainRun_dStopFail_eq :
    mainRun dStopFail = mainAfterRunBlock dStopFail setupEventsOK := by
  simp [mainRun, mainAfterChannelSetup, checkedCall, statusAfterOpen, openTrace,
    dStopFail, dHappy, setupEventsOK, gateChar, PICO_OK, PICO_POWER_SUPPLY_NOT_CONNECTED]

theorem timeout_stops_then_closes_witness :
    List.IsSuffix
      [Event.call .stop dStopFail.stopStatus, Event.call .closeUnit dStopFail.closeUnitStatus]
      (mainRun dStopFail).trace ∧
    (mainRun dStopFail).exitCode = -1 ∧ (mainRun dStopFail).printedA = [] := by
  have hpr : (mainRun dStopFail).pollRes = some (pollLoop dStopFail) := by
    rw [mainRun_dStopFail_eq, ARB_pollRes]
  have hto : (pollLoop dStopFail).exit = .timedOut := by
    rw [pollLoop_dStopFail]
  have h := timeout_stops_then_closes dStopFail (pollLoop dStopFail) hpr hto
  exact ⟨h.1, h.2.1, h.2.2.1⟩

lemma getValues_not_in_masterSetupList (d : Driver) :
    Call.getValues ∉ masterSetupList d := by
  unfold masterSetupList
  split <;> decide

lemma closeUnit_not_in_masterSetupList (d : Driver) :
    Call.closeUnit ∉ masterSetupList d := by
  unfold masterSetupList
  split <;> decide

/-- Claim C6: after retrieval, each per-sample print loop is bounded by the
sample count actually returned by `ps5000aGetValues` (`d.getValuesCount`), not
by the requested `NO_OF_SAMPLES`; when retrieval did not succeed nothing is
printed. -/
theorem printed_bounded_by_returned_count (d : Driver) :
    (mainRun d).printedA.length =
      (if retrievedOK (mainRun d) = true then d.getValuesCount else 0) ∧
    (mainRun d).printedB.length =
      (if retrievedOK (mainRun d) = true then d.getValuesCount else 0) := by
  rcases mainRun_split d with ⟨tr, heq, hsub, _⟩ | ⟨tr, heq, htr⟩
  · have hgv : Event.call .getValues PICO_OK ∉ tr := by
      intro hm
      exact getValues_not_in_masterSetupList d (hsub.subset (mem_callsOf.2 ⟨_, hm⟩))
    rw [heq]
    simp [failResult, retrievedOK, hgv]
  · have htrgv : Event.call .getValues PICO_OK ∉ tr := by
      rcases htr with ⟨_, rfl⟩ | ⟨_, rfl⟩ <;> simp [setupEventsPSNC, setupEventsOK]
    have hpoll : Event.call .getValues PICO_OK ∉ (pollLoop d).trace :=
      not_call_in_poll d (by decide) PICO_OK
    rcases hex : (pollLoop d).exit
    · by_cases hg : d.getValuesStatus = PICO_OK
      · rw [heq, ARB_gvOK d tr hex hg]
        simp [retrievedOK]
      · have hg2 : PICO_OK ≠ d.getValuesStatus := fun hh => hg hh.symm
        rw [heq, ARB_gvFail d tr hex hg]
        simp [retrievedOK, htrgv, hpoll, hg2]
    · rw [heq, ARB_errored d tr hex]
      simp [retrievedOK, htrgv, hpoll]
    · rw [heq, ARB_timedOut d tr hex]
      simp [retrievedOK, htrgv, hpoll]

/-- Claim C9: the two sample buffers are never released before retrieval (every
buffer-release event is preceded by the successful `ps5000aGetValues` call), and
after the capture-to-retrieval window has completed successfully both buffers
are released exactly once on every exit path; on paths that never complete
retrieval no release happens at all (the buffers simply leak). -/
theorem buffers_lifecycle (d : Driver) :
    (∀ pre post, (mainRun d).trace = pre ++ Event.freeBufferA :: post →
      Event.call .getValues PICO_OK ∈ pre) ∧
    (∀ pre post, (mainRun d).trace = pre ++ Event.freeBufferB :: post →
      Event.call .getValues PICO_OK ∈ pre) ∧
    (retrievedOK (mainRun d) = true →
      (mainRun d).trace.count Event.freeBufferA = 1 ∧
      (mainRun d).trace.count Event.freeBufferB = 1) ∧
    (retrievedOK (mainRun d) = false →
      Event.freeBufferA ∉ (mainRun d).trace ∧ Event.freeBufferB ∉ (mainRun d).trace) := by
  rcases mainRun_split d with ⟨tr, heq, hsub, _, hfA, hfB, _⟩ | ⟨tr, heq, htr⟩
  · have hgv : Event.call .getValues PICO_OK ∉ tr := by
      intro hm
      exact getValues_not_in_masterSetupList d (hsub.subset (mem_callsOf.2 ⟨_, hm⟩))
    rw [heq]
    refine ⟨?_, ?_, ?_, ?_⟩
    · intro pre post hdec
      exfalso
      exact hfA (by rw [show (failResult tr).trace = tr from rfl] at hdec; rw [hdec]; simp)
    · intro pre post hdec
      exfalso
      exact hfB (by rw [show (failResult tr).trace = tr from rfl] at hdec; rw [hdec]; simp)
    · intro htrue
      exfalso
      rw [show retrievedOK (failResult tr) = decide (Event.call .getValues PICO_OK ∈ tr)
        from rfl] at htrue
      simp [hgv] at htrue
    · intro _
      exact ⟨hfA, hfB⟩
  · have htrgv : Event.call .getValues PICO_OK ∉ tr := by
      rcases htr with ⟨_, rfl⟩ | ⟨_, rfl⟩ <;> simp [setupEventsPSNC, setupEventsOK]
    have htrfA : Event.freeBufferA ∉ tr := by
      rcases htr with ⟨_, rfl⟩ | ⟨_, rfl⟩ <;> simp [setupEventsPSNC, setupEventsOK]
    have htrfB : Event.freeBufferB ∉ tr := by
      rcases htr with ⟨_, rfl⟩ | ⟨_, rfl⟩ <;> simp [setupEventsPSNC, setupEventsOK]
    have hpollgv : Event.call .getValues PICO_OK ∉ (pollLoop d).trace :=
      not_call_in_poll d (by decide) PICO_OK
    have hpollfA := freeA_not_in_poll d
    have hpollfB := freeB_not_in_poll d
    rcases hex : (pollLoop d).exit
    · by_cases hg : d.getValuesStatus = PICO_OK
      · rw [heq, ARB_gvOK d tr hex hg]
        refine ⟨?_, ?_, ?_, ?_⟩
        · intro pre post hdec
          have hX : Event.freeBufferA ∉ tr ++ (pollLoop d).trace ++
              [Event.call .getValues PICO_OK] := by
            simp [htrfA, hpollfA]
          have hY : Event.freeBufferA ∉
              [Event.freeBufferB, Event.call .closeUnit d.closeUnitStatus] := by
            simp
          have hdec2 : (tr ++ (pollLoop d).trace ++ [Event.call .getValues PICO_OK]) ++
              Event.freeBufferA ::
                [Event.freeBufferB, Event.call .closeUnit d.closeUnitStatus] =
              pre ++ Event.freeBufferA :: post := by
            simpa using hdec
          obtain ⟨hpre, _⟩ := unique_middle _ pre _ post hX hY hdec2
          rw [hpre]
          simp
        · intro pre post hdec
          have hX : Event.freeBufferB ∉ (tr ++ (pollLoop d).trace ++
              [Event.call .getValues PICO_OK]) ++ [Event.freeBufferA] := by
            simp [htrfB, hpollfB]
          have hY : Event.freeBufferB ∉ [Event.call .closeUnit d.closeUnitStatus] := by
            simp
          have hdec2 : ((tr ++ (pollLoop d).trace ++ [Event.call .getValues PICO_OK]) ++
              [Event.freeBufferA]) ++ Event.freeBufferB ::
                [Event.call .closeUnit d.closeUnitStatus] =
              pre ++ Event.freeBufferB :: post := by
            simpa using hdec
          obtain ⟨hpre, _⟩ := unique_middle _ pre _ post hX hY hdec2
          rw [hpre]
          simp
        · intro _
          constructor <;>
            simp [List.count_append, List.count_cons, List.count_eq_zero.2 htrfA,
              List.count_eq_zero.2 htrfB, List.count_eq_zero.2 hpollfA,
              List.count_eq_zero.2 hpollfB]
        · intro hfalse
          exfalso
          rw [show retrievedOK (⟨if d.closeUnitStatus ≠ PICO_OK then -1 else 0,
            tr ++ (pollLoop d).trace ++ [Event.call .getValues PICO_OK] ++
              [Event.freeBufferA, Event.freeBufferB,
                Event.call .closeUnit d.closeUnitStatus],
            (List.range d.getValuesCount).map
              (fun i => (i, d.bufferA i, adc_to_mv (d.bufferA i) printRange MAX_ADC)),
            (List.range d.getValuesCount).map
              (fun i => (i, d.bufferB i, adc_to_mv (d.bufferB i) printRange MAX_ADC)),
            some (pollLoop d)⟩ : RunResult) =
              decide (Event.call .getValues PICO_OK ∈ tr ++ (pollLoop d).trace ++
                [Event.call .getValues PICO_OK] ++
                [Event.freeBufferA, Event.freeBufferB,
                  Event.call .closeUnit d.closeUnitStatus]) from rfl] at hfalse
          simp at hfalse
      · rw [heq, ARB_gvFail d tr hex hg]
        have hg2 : PICO_OK ≠ d.getValuesStatus := fun hh => hg hh.symm
        refine ⟨?_, ?_, ?_, ?_⟩
        · intro pre post hdec
          exfalso
          have : Event.freeBufferA ∈ tr ++ (pollLoop d).trace ++
              [Event.call .getValues d.getValuesStatus] := by
            rw [show ((⟨-1, tr ++ (pollLoop d).trace ++
              [Event.call .getValues d.getValuesStatus], [], [],
              some (pollLoop d)⟩ : RunResult)).trace = tr ++ (pollLoop d).trace ++
              [Event.call .getValues d.getValuesStatus] from rfl] at hdec
            rw [hdec]
            simp
          simp [htrfA, hpollfA] at this
        · intro pre post hdec
          exfalso
          have : Event.freeBufferB ∈ tr ++ (pollLoop d).trace ++
              [Event.call .getValues d.getValuesStatus] := by
            rw [show ((⟨-1, tr ++ (pollLoop d).trace ++
              [Event.call .getValues d.getValuesStatus], [], [],
              some (pollLoop d)⟩ : RunResult)).trace = tr ++ (pollLoop d).trace ++
              [Event.call .getValues d.getValuesStatus] from rfl] at hdec
            rw [hdec]
            simp
          simp [htrfB, hpollfB] at this
        · intro htrue
          exfalso
          simp [retrievedOK, htrgv, hpollgv, hg2] at htrue
        · intro _
          constructor <;> simp [htrfA, htrfB, hpollfA, hpollfB]
    · rw [heq, ARB_errored d tr hex]
      refine ⟨?_, ?_, ?_, ?_⟩
      · intro pre post hdec
        exfalso
        have : Event.freeBufferA ∈ tr ++ (pollLoop d).trace := by
          rw [show ((⟨-1, tr ++ (pollLoop d).trace, [], [],
            some (pollLoop d)⟩ : RunResult)).trace = tr ++ (pollLoop d).trace from rfl] at hdec
          rw [hdec]
          simp
        simp [htrfA, hpollfA] at this
      · intro pre post hdec
        exfalso
        have : Event.freeBufferB ∈ tr ++ (pollLoop d).trace := by
          rw [show ((⟨-1, tr ++ (pollLoop d).trace, [], [],
            some (pollLoop d)⟩ : RunResult)).trace = tr ++ (pollLoop d).trace from rfl] at hdec
          rw [hdec]
          simp
        simp [htrfB, hpollfB] at this
      · intro htrue
        exfalso
        simp [retrievedOK, htrgv, hpollgv] at htrue
      · intro _
        constructor <;> simp [htrfA, htrfB, hpollfA, hpollfB]
    · rw [heq, ARB_timedOut d tr hex]
      refine ⟨?_, ?_, ?_, ?_⟩
      · intro pre post hdec
        exfalso
        have : Event.freeBufferA ∈ tr ++ (pollLoop d).trace ++
            [Event.call .stop d.stopStatus, Event.call .closeUnit d.closeUnitStatus] := by
          rw [show ((⟨-1, tr ++ (pollLoop d).trace ++
            [Event.call .stop d.stopStatus, Event.call .closeUnit d.closeUnitStatus],
            [], [], some (pollLoop d)⟩ : RunResult)).trace = tr ++ (pollLoop d).trace ++
            [Event.call .stop d.stopStatus, Event.call .closeUnit d.closeUnitStatus]
            from rfl] at hdec
          rw [hdec]
          simp
        simp [htrfA, hpollfA] at this
      · intro pre post hdec
        exfalso
        have : Event.freeBufferB ∈ tr ++ (pollLoop d).trace ++
            [Event.call .stop d.stopStatus, Event.call .closeUnit d.closeUnitStatus] := by
          rw [show ((⟨-1, tr ++ (pollLoop d).trace ++
            [Event.call .stop d.stopStatus, Event.call .closeUnit d.closeUnitStatus],
            [], [], some (pollLoop d)⟩ : RunResult)).trace = tr ++ (pollLoop d).trace ++
            [Event.call .stop d.stopStatus, Event.call .closeUnit d.closeUnitStatus]
            from rfl] at hdec
          rw [hdec]
          simp
        simp [htrfB, hpollfB] at this
      · intro htrue
        exfalso
        simp [retrievedOK, htrgv, hpollgv] at htrue
      · intro _
        constructor <;> simp [htrfA, htrfB, hpollfA, hpollfB]

theorem buffers_lifecycle_witness :
    Event.call .getValues PICO_OK ∈
      ([.call .openUnit PICO_OK, .call (.setChannel .A) PICO_OK,
        .call (.setChannel .B) PICO_OK, .call (.setDataBuffer .A) PICO_OK,
        .call (.setDataBuffer .B) PICO_OK, .call .getTimebase PICO_OK,
        .call .setSimpleTrigger PICO_OK, .call .setSigGenBuiltInV2 PICO_OK,
        .call .runBlock PICO_OK, .call .isReady PICO_OK,
        .call .getValues PICO_OK] : List Event) :=
  (buffers_lifecycle dHappy).1
    [.call .openUnit PICO_OK, .call (.setChannel .A) PICO_OK,
      .call (.setChannel .B) PICO_OK, .call (.setDataBuffer .A) PICO_OK,
      .call (.setDataBuffer .B) PICO_OK, .call .getTimebase PICO_OK,
      .call .setSimpleTrigger PICO_OK, .call .setSigGenBuiltInV2 PICO_OK,
      .call .runBlock PICO_OK, .call .isReady PICO_OK, .call .getValues PICO_OK]
    [Event.freeBufferB, .call .closeUnit PICO_OK]
    (by decide)

lemma callsOf_append (l1 l2 : List Event) :
    callsOf (l1 ++ l2) = callsOf l1 ++ callsOf l2 :=
  List.filterMap_append l1 l2 Event.callOf

/-- Counterexample to claim C4 as stated: with a driver whose `ps5000aOpenUnit`
succeeds but whose `ps5000aSetChannel` for channel A fails, the program exits
-1 without ever calling `ps5000aCloseUnit`. -/
theorem close_skipped_on_channel_error :
    dChanFail.openStatus = PICO_OK ∧
    (mainRun dChanFail).exitCode = -1 ∧
    Call.closeUnit ∉ callsOf (mainRun dChanFail).trace := by
  decide

/-- Claim C4 (amended): `ps5000aCloseUnit` is called exactly once on the
polling-timeout path and on the paths where retrieval succeeded (the success
exit and the close-failure exit); on every other exit path after a successful
open the program returns without calling close. -/
theorem close_called_iff_timeout_or_retrieval (d : Driver) :
    (callsOf (mainRun d).trace).count .closeUnit =
      (if timedOutRun (mainRun d) = true ∨ retrievedOK (mainRun d) = true then 1 else 0) := by
  rcases mainRun_split d with ⟨tr, heq, hsub, _⟩ | ⟨tr, heq, htr⟩
  · have hgv : Event.call .getValues PICO_OK ∉ tr := by
      intro hm
      exact getValues_not_in_masterSetupList d (hsub.subset (mem_callsOf.2 ⟨_, hm⟩))
    have hcl : (callsOf tr).count Call.closeUnit = 0 := by
      rw [List.count_eq_zero]
      intro hm
      exact closeUnit_not_in_masterSetupList d (hsub.subset hm)
    rw [heq]
    have h1 : (failResult tr).trace = tr := rfl
    have h2 : timedOutRun (failResult tr) = false := rfl
    rw [show callsOf (failResult tr).trace = callsOf tr from rfl, hcl, h2]
    simp [failResult, retrievedOK, hgv]
  · have htrgv : Event.call .getValues PICO_OK ∉ tr := by
      rcases htr with ⟨_, rfl⟩ | ⟨_, rfl⟩ <;> simp [setupEventsPSNC, setupEventsOK]
    have htrcl : (callsOf tr).count Call.closeUnit = 0 := by
      rcases htr with ⟨_, rfl⟩ | ⟨_, rfl⟩ <;> decide
    have hpollgv : Event.call .getValues PICO_OK ∉ (pollLoop d).trace :=
      not_call_in_poll d (by decide) PICO_OK
    have hpollcl : (callsOf (pollLoop d).trace).count Call.closeUnit = 0 := by
      rw [pollLoop_calls]
      simp [List.count_replicate]
    rcases hex : (pollLoop d).exit
    · by_cases hg : d.getValuesStatus = PICO_OK
      · rw [heq, ARB_gvOK d tr hex hg]
        have hro : retrievedOK (⟨if d.closeUnitStatus ≠ PICO_OK then -1 else 0,
            tr ++ (pollLoop d).trace ++ [Event.call .getValues PICO_OK] ++
              [Event.freeBufferA, Event.freeBufferB,
                Event.call .closeUnit d.closeUnitStatus],
            (List.range d.getValuesCount).map
              (fun i => (i, d.bufferA i, adc_to_mv (d.bufferA i) printRange MAX_ADC)),
            (List.range d.getValuesCount).map
              (fun i => (i, d.bufferB i, adc_to_mv (d.bufferB i) printRange MAX_ADC)),
            some (pollLoop d)⟩ : RunResult) = true := by
          simp [retrievedOK]
        rw [hro]
        have htail1 : callsOf [Event.call .getValues PICO_OK] = [Call.getValues] := rfl
        have htail2 : callsOf [Event.freeBufferA, Event.freeBufferB,
            Event.call .closeUnit d.closeUnitStatus] = [Call.closeUnit] := rfl
        rw [show ((⟨if d.closeUnitStatus ≠ PICO_OK then -1 else 0,
          tr ++ (pollLoop d).trace ++ [Event.call .getValues PICO_OK] ++
            [Event.freeBufferA, Event.freeBufferB,
              Event.call .closeUnit d.closeUnitStatus],
          (List.range d.getValuesCount).map
            (fun i => (i, d.bufferA i, adc_to_mv (d.bufferA i) printRange MAX_ADC)),
          (List.range d.getValuesCount).map
            (fun i => (i, d.bufferB i, adc_to_mv (d.bufferB i) printRange MAX_ADC)),
          some (pollLoop d)⟩ : RunResult)).trace = tr ++ (pollLoop d).trace ++
            [Event.call .getValues PICO_OK] ++
            [Event.freeBufferA, Event.freeBufferB,
              Event.call .closeUnit d.closeUnitStatus] from rfl]
        rw [callsOf_append, callsOf_append, callsOf_append, htail1, htail2]
        simp [List.count_append, htrcl, hpollcl]
      · have hg2 : PICO_OK ≠ d.getValuesStatus := fun hh => hg hh.symm
        rw [heq, ARB_gvFail d tr hex hg]
        have hro : retrievedOK (⟨-1, tr ++ (pollLoop d).trace ++
            [Event.call .getValues d.getValuesStatus], [], [],
            some (pollLoop d)⟩ : RunResult) = false := by
          simp [retrievedOK, htrgv, hpollgv, hg2]
        rw [hro]
        have htail1 : callsOf [Event.call .getValues d.getValuesStatus] =
            [Call.getValues] := rfl
        rw [show ((⟨-1, tr ++ (pollLoop d).trace ++
          [Event.call .getValues d.getValuesStatus], [], [],
          some (pollLoop d)⟩ : RunResult)).trace = tr ++ (pollLoop d).trace ++
            [Event.call .getValues d.getValuesStatus] from rfl]
        rw [callsOf_append, callsOf_append, htail1]
        have h2 : timedOutRun (⟨-1, tr ++ (pollLoop d).trace ++
            [Event.call .getValues d.getValuesStatus], [], [],
            some (pollLoop d)⟩ : RunResult) = false := by
          simp [timedOutRun, hex]
        rw [h2]
        simp [List.count_append, htrcl, hpollcl]
    · rw [heq, ARB_errored d tr hex]
      have hro : retrievedOK (⟨-1, tr ++ (pollLoop d).trace, [], [],
          some (pollLoop d)⟩ : RunResult) = false := by
        simp [retrievedOK, htrgv, hpollgv]
      rw [hro]
      have h2 : timedOutRun (⟨-1, tr ++ (pollLoop d).trace, [], [],
          some (pollLoop d)⟩ : RunResult) = false := by
        simp [timedOutRun, hex]
      rw [h2]
      rw [show ((⟨-1, tr ++ (pollLoop d).trace, [], [],
        some (pollLoop d)⟩ : RunResult)).trace = tr ++ (pollLoop d).trace from rfl]
      rw [callsOf_append]
      simp [List.count_append, htrcl, hpollcl]
    · rw [heq, ARB_timedOut d tr hex]
      have h2 : timedOutRun (⟨-1, tr ++ (pollLoop d).trace ++
          [Event.call .stop d.stopStatus, Event.call .closeUnit d.closeUnitStatus],
          [], [], some (pollLoop d)⟩ : RunResult) = true := by
        simp [timedOutRun, hex]
      rw [h2]
      have htail : callsOf [Event.call .stop d.stopStatus,
          Event.call .closeUnit d.closeUnitStatus] = [Call.stop, Call.closeUnit] := rfl
      rw [show ((⟨-1, tr ++ (pollLoop d).trace ++
        [Event.call .stop d.stopStatus, Event.call .closeUnit d.closeUnitStatus],
        [], [], some (pollLoop d)⟩ : RunResult)).trace = tr ++ (pollLoop d).trace ++
          [Event.call .stop d.stopStatus, Event.call .closeUnit d.closeUnitStatus]
          from rfl]
      rw [callsOf_append, callsOf_append, htail]
      simp [List.count_append, htrcl, hpollcl]

lemma checkedCall_trace_cons (tr : List Event) (c : Call) (st : Nat)
    (k : List Event → RunResult) (hk : ∀ l, ∃ s, (k l).trace = l ++ s) :
    ∃ s, (checkedCall tr c st k).trace = tr ++ Event.call c st :: s := by
  unfold checkedCall
  split_ifs with h
  · exact ⟨[], rfl⟩
  · obtain ⟨s, hs⟩ := hk (tr ++ [.call c st])
    exact ⟨s, by rw [hs, List.append_assoc]; rfl⟩

lemma checkedCall_trace_extending (tr : List Event) (c : Call) (st : Nat)
    (k : List Event → RunResult) (hk : ∀ l, ∃ s, (k l).trace = l ++ s) :
    ∃ s, (checkedCall tr c st k).trace = tr ++ s := by
  obtain ⟨s, hs⟩ := checkedCall_trace_cons tr c st k hk
  exact ⟨Event.call c st :: s, hs⟩

lemma ARB_trace_extending (d : Driver) : ∀ l, ∃ s, (mainAfterRunBlock d l).trace = l ++ s := by
  intro l
  rcases hex : (pollLoop d).exit
  · by_cases hg : d.getValuesStatus = PICO_OK
    · rw [ARB_gvOK d l hex hg]
      exact ⟨(pollLoop d).trace ++ [Event.call .getValues PICO_OK] ++
        [Event.freeBufferA, Event.freeBufferB, Event.call .closeUnit d.closeUnitStatus],
        by simp⟩
    · rw [ARB_gvFail d l hex hg]
      exact ⟨(pollLoop d).trace ++ [Event.call .getValues d.getValuesStatus], by simp⟩
  · rw [ARB_errored d l hex]
    exact ⟨(pollLoop d).trace, rfl⟩
  · rw [ARB_timedOut d l hex]
    exact ⟨(pollLoop d).trace ++
      [Event.call .stop d.stopStatus, Event.call .closeUnit d.closeUnitStatus], by simp⟩

lemma ACS_trace_extending (d : Driver) :
    ∀ tr, ∃ s, (mainAfterChannelSetup d tr).trace = tr ++ s := by
  intro tr
  unfold mainAfterChannelSetup
  apply checkedCall_trace_extending
  intro l1
  apply checkedCall_trace_extending
  intro l2
  apply checkedCall_trace_extending
  intro l3
  apply checkedCall_trace_extending
  intro l4
  apply checkedCall_trace_extending
  intro l5
  by_cases hgate : d.input.head? = some gateChar
  · simp only [hgate, ne_eq, not_true_eq_false, if_false]
    apply checkedCall_trace_extending
    intro l6
    exact ARB_trace_extending d l6
  · refine ⟨[], ?_⟩
    simp [hgate, failResult]

lemma mainRun_trace_chA (d : Driver) (h0 : statusAfterOpen d = PICO_OK) :
    ∃ s, (mainRun d).trace =
      openTrace d ++ Event.call (.setChannel .A) (d.setChannelStatus .A) :: s := by
  unfold mainRun
  rw [if_neg (by simp [h0])]
  have hrest : ∀ l, ∃ s,
      ((fun tr => checkedCall tr (.setChannel .B) (d.setChannelStatus .B) fun tr =>
        if d.openStatus = PICO_POWER_SUPPLY_NOT_CONNECTED then
          checkedCall tr (.setChannel .C) (d.setChannelStatus .C) fun tr =>
          checkedCall tr (.setChannel .D) (d.setChannelStatus .D) fun tr =>
          mainAfterChannelSetup d tr
        else
          mainAfterChannelSetup d tr) l).trace = l ++ s := by
    intro l
    apply checkedCall_trace_extending
    intro l2
    by_cases hpw : d.openStatus = PICO_POWER_SUPPLY_NOT_CONNECTED
    · simp only [hpw, if_true]
      apply checkedCall_trace_extending
      intro l3
      apply checkedCall_trace_extending
      intro l4
      exact ACS_trace_extending d l4
    · simp only [hpw, if_false]
      exact ACS_trace_extending d l2
  exact checkedCall_trace_cons (openTrace d) _ _ _ hrest

lemma ARB_calls_sublist (d : Driver) (tr : List Event) :
    (callsOf (mainAfterRunBlock d tr).trace).Sublist
      (callsOf tr ++ (List.replicate (pollLoop d).trace.length Call.isReady ++
        [Call.stop, Call.getValues, Call.closeUnit])) := by
  rcases hex : (pollLoop d).exit
  · by_cases hg : d.getValuesStatus = PICO_OK
    · rw [ARB_gvOK d tr hex hg]
      rw [show ((⟨if d.closeUnitStatus ≠ PICO_OK then -1 else 0,
        tr ++ (pollLoop d).trace ++ [Event.call .getValues PICO_OK] ++
          [Event.freeBufferA, Event.freeBufferB, Event.call .closeUnit d.closeUnitStatus],
        (List.range d.getValuesCount).map
          (fun i => (i, d.bufferA i, adc_to_mv (d.bufferA i) printRange MAX_ADC)),
        (List.range d.getValuesCount).map
          (fun i => (i, d.bufferB i, adc_to_mv (d.bufferB i) printRange MAX_ADC)),
        some (pollLoop d)⟩ : RunResult)).trace = tr ++ (pollLoop d).trace ++
          [Event.call .getValues PICO_OK] ++
          [Event.freeBufferA, Event.freeBufferB, Event.call .closeUnit d.closeUnitStatus]
        from rfl]
      rw [callsOf_append, callsOf_append, callsOf_append, pollLoop_calls]
      rw [show callsOf [Event.call .getValues PICO_OK] = [Call.getValues] from rfl]
      rw [show callsOf [Event.freeBufferA, Event.freeBufferB,
        Event.call .closeUnit d.closeUnitStatus] = [Call.closeUnit] from rfl]
      rw [List.append_assoc, List.append_assoc]
      exact List.Sublist.append (List.Sublist.refl _)
        (List.Sublist.append (List.Sublist.refl _) (by decide))
    · rw [ARB_gvFail d tr hex hg]
      rw [show ((⟨-1, tr ++ (pollLoop d).trace ++
        [Event.call .getValues d.getValuesStatus], [], [],
        some (pollLoop d)⟩ : RunResult)).trace = tr ++ (pollLoop d).trace ++
          [Event.call .getValues d.getValuesStatus] from rfl]
      rw [callsOf_append, callsOf_append, pollLoop_calls]
      rw [show callsOf [Event.call .getValues d.getValuesStatus] = [Call.getValues]
        from rfl]
      rw [List.append_assoc]
      exact List.Sublist.append (List.Sublist.refl _)
        (List.Sublist.append (List.Sublist.refl _) (by decide))
  · rw [ARB_errored d tr hex]
    rw [show ((⟨-1, tr ++ (pollLoop d).trace, [], [],
      some (pollLoop d)⟩ : RunResult)).trace = tr ++ (pollLoop d).trace from rfl]
    rw [callsOf_append, pollLoop_calls]
    have h1 : (callsOf tr ++ List.replicate (pollLoop d).trace.length Call.isReady).Sublist
        (callsOf tr ++ (List.replicate (pollLoop d).trace.length Call.isReady ++
          [Call.stop, Call.getValues, Call.closeUnit])) := by
      rw [← List.append_assoc]
      exact List.sublist_append_left _ _
    exact h1
  · rw [ARB_timedOut d tr hex]
    rw [show ((⟨-1, tr ++ (pollLoop d).trace ++
      [Event.call .stop d.stopStatus, Event.call .closeUnit d.closeUnitStatus],
      [], [], some (pollLoop d)⟩ : RunResult)).trace = tr ++ (pollLoop d).trace ++
        [Event.call .stop d.stopStatus, Event.call .closeUnit d.closeUnitStatus]
      from rfl]
    rw [callsOf_append, callsOf_append, pollLoop_calls]
    rw [show callsOf [Event.call .stop d.stopStatus,
      Event.call .closeUnit d.closeUnitStatus] = [Call.stop, Call.closeUnit] from rfl]
    rw [List.append_assoc]
    exact List.Sublist.append (List.Sublist.refl _)
      (List.Sublist.append (List.Sublist.refl _) (by decide))

lemma mainRun_calls_sublist (d : Driver) :
    (callsOf (mainRun d).trace).Sublist (masterList d) := by
  rcases mainRun_split d with ⟨tr, heq, hsub, _⟩ | ⟨tr, heq, htr⟩
  · rw [heq, show (failResult tr).trace = tr from rfl, masterList]
    exact hsub.trans (List.sublist_append_left _ _)
  · rw [heq]
    have h := ARB_calls_sublist d tr
    have hcalls : callsOf tr = masterSetupList d := by
      rcases htr with ⟨hpw, rfl⟩ | ⟨h0, rfl⟩
      · rw [masterSetupList, if_pos hpw]
        rfl
      · rw [masterSetupList, if_neg (by rw [h0]; decide)]
        rfl
    rw [masterList, ← hcalls]
    exact h

lemma count_masterList_le_one (d : Driver) (c : Call) (hc : c ≠ .isReady) :
    (masterList d).count c ≤ 1 := by
  have hrep : (List.replicate (pollLoop d).trace.length Call.isReady).count c = 0 := by
    rw [List.count_replicate]
    simp only [beq_iff_eq]
    rw [if_neg (Ne.symm hc)]
  rw [masterList, List.count_append, List.count_append, hrep]
  by_cases hpw : d.openStatus = PICO_POWER_SUPPLY_NOT_CONNECTED
  · rw [masterSetupList, if_pos hpw]
    rcases c with _ | _ | ch | ch | _ | _ | _ | _ | _ | _ | _ | _ <;>
      first
        | (rcases ch with _ | _ | _ | _ <;> decide)
        | decide
  · rw [masterSetupList, if_neg hpw]
    rcases c with _ | _ | ch | ch | _ | _ | _ | _ | _ | _ | _ | _ <;>
      first
        | (rcases ch with _ | _ | _ | _ <;> decide)
        | decide

/-- Claim C8: `ps5000aChangePowerSource` is called exactly once when (and only
when) open returned `PICO_POWER_SUPPLY_NOT_CONNECTED`; if the remediation call
fails the run ends right there with exit -1, and if it succeeds the workflow
proceeds (channel A is configured next). -/
theorem power_remediation (d : Driver) :
    ((callsOf (mainRun d).trace).count .changePowerSource =
      (if d.openStatus = PICO_POWER_SUPPLY_NOT_CONNECTED then 1 else 0)) ∧
    (d.openStatus = PICO_POWER_SUPPLY_NOT_CONNECTED →
      (d.changePowerSourceStatus ≠ PICO_OK →
        mainRun d = failResult [Event.call .openUnit PICO_POWER_SUPPLY_NOT_CONNECTED,
          Event.call .changePowerSource d.changePowerSourceStatus] ∧
        (mainRun d).exitCode = -1) ∧
      (d.changePowerSourceStatus = PICO_OK →
        Call.setChannel Channel.A ∈ callsOf (mainRun d).trace)) := by
  constructor
  · have hupper := (mainRun_calls_sublist d).count_le Call.changePowerSource
    by_cases hpw : d.openStatus = PICO_POWER_SUPPLY_NOT_CONNECTED
    · rw [if_pos hpw]
      have hmaster : (masterList d).count Call.changePowerSource = 1 := by
        have hrep : (List.replicate (pollLoop d).trace.length Call.isReady).count
            Call.changePowerSource = 0 := by
          rw [List.count_replicate]
          simp
        rw [masterList, List.count_append, List.count_append, hrep, masterSetupList,
          if_pos hpw]
        decide
      rw [hmaster] at hupper
      have hlower : 1 ≤ (callsOf (mainRun d).trace).count Call.changePowerSource := by
        have hmem : Call.changePowerSource ∈ callsOf (mainRun d).trace := by
          rcases mainRun_split d with ⟨tr, heq, _, _, _, _, s, hs⟩ | ⟨tr, heq, htr⟩
          · rw [heq, show (failResult tr).trace = tr from rfl, hs]
            refine mem_callsOf.2 ⟨d.changePowerSourceStatus, ?_⟩
            rw [openTrace, if_pos hpw]
            simp
          · obtain ⟨s, hs⟩ := ARB_trace_extending d tr
            rw [heq, hs]
            rcases htr with ⟨_, rfl⟩ | ⟨h0, _⟩
            · refine mem_callsOf.2 ⟨PICO_OK, ?_⟩
              simp [setupEventsPSNC]
            · rw [h0] at hpw
              exact absurd hpw (by decide)
        exact List.count_pos_iff.2 hmem
      omega
    · rw [if_neg hpw]
      have hmaster : (masterList d).count Call.changePowerSource = 0 := by
        have hrep : (List.replicate (pollLoop d).trace.length Call.isReady).count
            Call.changePowerSource = 0 := by
          rw [List.count_replicate]
          simp
        rw [masterList, List.count_append, List.count_append, hrep, masterSetupList,
          if_neg hpw]
        decide
      rw [hmaster] at hupper
      omega
  · intro hpw
    constructor
    · intro hcps
      have heq : mainRun d = failResult (openTrace d) := by
        unfold mainRun
        rw [if_pos (by simp [statusAfterOpen, hpw, hcps])]
      constructor
      · rw [heq, openTrace, if_pos hpw, hpw]
      · rw [heq]
        rfl
    · intro hcps
      have h0 : statusAfterOpen d = PICO_OK := by
        simp [statusAfterOpen, hpw, hcps]
      obtain ⟨s, hs⟩ := mainRun_trace_chA d h0
      rw [hs]
      refine mem_callsOf.2 ⟨d.setChannelStatus .A, ?_⟩
      simp

theorem power_remediation_witness :
    (callsOf (mainRun dPSNC).trace).count .changePowerSource = 1 ∧
    Call.setChannel Channel.A ∈ callsOf (mainRun dPSNC).trace := by
  have h := power_remediation dPSNC
  have h1 := h.1
  rw [if_pos (by decide : dPSNC.openStatus = PICO_POWER_SUPPLY_NOT_CONNECTED)] at h1
  exact ⟨h1, (h.2 (by decide)).2 (by decide)⟩

lemma ACS_trace_runBlock (d : Driver) (tr : List Event)
    (hbA : d.setDataBufferStatus .A = PICO_OK) (hbB : d.setDataBufferStatus .B = PICO_OK)
    (htb : d.getTimebaseStatus = PICO_OK) (htg : d.setSimpleTriggerStatus = PICO_OK)
    (hsg : d.setSigGenStatus = PICO_OK) (hgate : d.input.head? = some gateChar) :
    ∃ s, (mainAfterChannelSetup d tr).trace =
      (tr ++ [.call (.setDataBuffer .A) PICO_OK, .call (.setDataBuffer .B) PICO_OK,
        .call .getTimebase PICO_OK, .call .setSimpleTrigger PICO_OK,
        .call .setSigGenBuiltInV2 PICO_OK]) ++
        Event.call .runBlock d.runBlockStatus :: s := by
  have heq : mainAfterChannelSetup d tr =
      checkedCall (tr ++ [.call (.setDataBuffer .A) PICO_OK,
        .call (.setDataBuffer .B) PICO_OK, .call .getTimebase PICO_OK,
        .call .setSimpleTrigger PICO_OK, .call .setSigGenBuiltInV2 PICO_OK])
        .runBlock d.runBlockStatus (fun tr => mainAfterRunBlock d tr) := by
    simp [mainAfterChannelSetup, checkedCall, hbA, hbB, htb, htg, hsg, hgate]
  rw [heq]
  exact checkedCall_trace_cons _ _ _ _ (ARB_trace_extending d)

/-- Claim C7: at the stdin confirmation gate (a single blocking token read),
the capture is armed (`ps5000aRunBlock` is invoked) if and only if the token's
first character is the start character `'s'`; for any other input the program
exits -1 without arming the capture or ever polling readiness. -/
theorem confirmation_gate (d : Driver)
    (h0 : statusAfterOpen d = PICO_OK)
    (hA : d.setChannelStatus .A = PICO_OK) (hB : d.setChannelStatus .B = PICO_OK)
    (hCD : d.openStatus = PICO_POWER_SUPPLY_NOT_CONNECTED →
      d.setChannelStatus .C = PICO_OK ∧ d.setChannelStatus .D = PICO_OK)
    (hbA : d.setDataBufferStatus .A = PICO_OK) (hbB : d.setDataBufferStatus .B = PICO_OK)
    (htb : d.getTimebaseStatus = PICO_OK) (htg : d.setSimpleTriggerStatus = PICO_OK)
    (hsg : d.setSigGenStatus = PICO_OK) :
    (Call.runBlock ∈ callsOf (mainRun d).trace ↔ d.input.head? = some gateChar) ∧
    (d.input.head? ≠ some gateChar →
      (mainRun d).exitCode = -1 ∧ (mainRun d).pollRes = none ∧
      Call.runBlock ∉ callsOf (mainRun d).trace ∧
      Call.isReady ∉ callsOf (mainRun d).trace) := by
  by_cases hpw : d.openStatus = PICO_POWER_SUPPLY_NOT_CONNECTED
  · obtain ⟨hC, hD⟩ := hCD hpw
    have hcps : d.changePowerSourceStatus = PICO_OK := by
      rw [statusAfterOpen, if_pos hpw] at h0
      exact h0
    have hhead : mainRun d = mainAfterChannelSetup d
        [.call .openUnit PICO_POWER_SUPPLY_NOT_CONNECTED,
         .call .changePowerSource PICO_OK,
         .call (.setChannel .A) PICO_OK, .call (.setChannel .B) PICO_OK,
         .call (.setChannel .C) PICO_OK, .call (.setChannel .D) PICO_OK] := by
      simp [mainRun, checkedCall, statusAfterOpen, openTrace, hpw, hcps, hA, hB, hC, hD]
    by_cases hgate : d.input.head? = some gateChar
    · have hmem : Call.runBlock ∈ callsOf (mainRun d).trace := by
        rw [hhead]
        obtain ⟨s, hs⟩ := ACS_trace_runBlock d _ hbA hbB htb htg hsg hgate
        rw [hs]
        refine mem_callsOf.2 ⟨d.runBlockStatus, ?_⟩
        simp
      exact ⟨⟨fun _ => hgate, fun _ => hmem⟩, fun hne => absurd hgate hne⟩
    · have hfail : mainRun d = failResult
          ([.call .openUnit PICO_POWER_SUPPLY_NOT_CONNECTED,
            .call .changePowerSource PICO_OK,
            .call (.setChannel .A) PICO_OK, .call (.setChannel .B) PICO_OK,
            .call (.setChannel .C) PICO_OK, .call (.setChannel .D) PICO_OK] ++
           [.call (.setDataBuffer .A) PICO_OK, .call (.setDataBuffer .B) PICO_OK,
            .call .getTimebase PICO_OK, .call .setSimpleTrigger PICO_OK,
            .call .setSigGenBuiltInV2 PICO_OK]) := by
        rw [hhead]
        simp [mainAfterChannelSetup, checkedCall, failResult, hbA, hbB, htb, htg, hsg, hgate]
      have hnotrb : Call.runBlock ∉ callsOf (mainRun d).trace := by
        rw [hfail]
        decide
      have hnotir : Call.isReady ∉ callsOf (mainRun d).trace := by
        rw [hfail]
        decide
      exact ⟨⟨fun hmem => False.elim (hnotrb hmem), fun hg => absurd hg hgate⟩,
        fun _ => ⟨by rw [hfail]; rfl, by rw [hfail]; rfl, hnotrb, hnotir⟩⟩
  · have hopen : d.openStatus = PICO_OK := by
      rw [statusAfterOpen, if_neg hpw] at h0
      exact h0
    have hne : PICO_OK ≠ PICO_POWER_SUPPLY_NOT_CONNECTED := by decide
    have hhead : mainRun d = mainAfterChannelSetup d
        [.call .openUnit PICO_OK,
         .call (.setChannel .A) PICO_OK, .call (.setChannel .B) PICO_OK] := by
      simp [mainRun, checkedCall, statusAfterOpen, openTrace, hpw, hopen, hA, hB, hne]
    by_cases hgate : d.input.head? = some gateChar
    · have hmem : Call.runBlock ∈ callsOf (mainRun d).trace := by
        rw [hhead]
        obtain ⟨s, hs⟩ := ACS_trace_runBlock d _ hbA hbB htb htg hsg hgate
        rw [hs]
        refine mem_callsOf.2 ⟨d.runBlockStatus, ?_⟩
        simp
      exact ⟨⟨fun _ => hgate, fun _ => hmem⟩, fun hne2 => absurd hgate hne2⟩
    · have hfail : mainRun d = failResult
          ([.call .openUnit PICO_OK,
            .call (.setChannel .A) PICO_OK, .call (.setChannel .B) PICO_OK] ++
           [.call (.setDataBuffer .A) PICO_OK, .call (.setDataBuffer .B) PICO_OK,
            .call .getTimebase PICO_OK, .call .setSimpleTrigger PICO_OK,
            .call .setSigGenBuiltInV2 PICO_OK]) := by
        rw [hhead]
        simp [mainAfterChannelSetup, checkedCall, failResult, hbA, hbB, htb, htg, hsg, hgate]
      have hnotrb : Call.runBlock ∉ callsOf (mainRun d).trace := by
        rw [hfail]
        decide
      have hnotir : Call.isReady ∉ callsOf (mainRun d).trace := by
        rw [hfail]
        decide
      exact ⟨⟨fun hmem => False.elim (hnotrb hmem), fun hg => absurd hg hgate⟩,
        fun _ => ⟨by rw [hfail]; rfl, by rw [hfail]; rfl, hnotrb, hnotir⟩⟩

theorem confirmation_gate_witness :
    (mainRun dDecline).exitCode = -1 ∧
    Call.runBlock ∉ callsOf (mainRun dDecline).trace ∧
    (Call.runBlock ∈ callsOf (mainRun dHappy).trace ↔
      dHappy.input.head? = some gateChar) := by
  have hd := confirmation_gate dDecline (by decide) (by decide) (by decide) (by decide)
    (by decide) (by decide) (by decide) (by decide) (by decide)
  have hh := confirmation_gate dHappy (by decide) (by decide) (by decide) (by decide)
    (by decide) (by decide) (by decide) (by decide) (by decide)
  obtain ⟨hex, _, hnot, _⟩ := hd.2 (by decide)
  exact ⟨hex, hnot, hh.1⟩

lemma rangeMv_nonneg (r : PS5000A_RANGE) : 0 ≤ rangeMv r := by
  cases r <;> decide

/-- Counterexample to claim C5 as stated: the channels are configured with
range `PS5000A_1V` (lines 192, 198) but the printed conversion uses
`PS5000A_2V` (lines 336, 341), so the printed millivolt value (2000 at
full-scale code 32767) differs from the conversion evaluated at the channel's
configured range (1000). -/
theorem adc_conversion_not_configured_range :
    setChannelArgsA.range = PS5000A_RANGE.PS5000A_1V ∧
    setChannelArgsB.range = PS5000A_RANGE.PS5000A_1V ∧
    printRange ≠ setChannelArgsA.range ∧
    (mainRun dHappy).printedA = [(0, 32767, 2000)] ∧
    adc_to_mv 32767 setChannelArgsA.range MAX_ADC = 1000 ∧
    ((2000 : Int) ≠ 1000) := by
  decide

/-- Claim C5 (amended): the per-sample conversion printed by both loops is the
pure stateless function `adc_to_mv code range max = code * range_mv / max`,
evaluated with the fixed `PS5000A_2V` range (not the channels' configured
`PS5000A_1V` range) and the device maximum ADC code 32767; it maps 0 to 0,
`MAX_ADC` to the range's millivolt value, `-MAX_ADC` to its negation, and is
monotone in the input code. -/
theorem adc_conversion_fixed_2V_range (d : Driver) :
    ((mainRun d).printedA = (if retrievedOK (mainRun d) = true then
       (List.range d.getValuesCount).map
         (fun i => (i, d.bufferA i, adc_to_mv (d.bufferA i) printRange MAX_ADC))
       else []) ∧
     (mainRun d).printedB = (if retrievedOK (mainRun d) = true then
       (List.range d.getValuesCount).map
         (fun i => (i, d.bufferB i, adc_to_mv (d.bufferB i) printRange MAX_ADC))
       else [])) ∧
    printRange = PS5000A_RANGE.PS5000A_2V ∧
    printRange ≠ setChannelArgsA.range ∧
    (∀ r, adc_to_mv 0 r MAX_ADC = 0) ∧
    (∀ r, adc_to_mv MAX_ADC r MAX_ADC = rangeMv r) ∧
    (∀ r, adc_to_mv (-MAX_ADC) r MAX_ADC = -rangeMv r) ∧
    (∀ r a b, a ≤ b → adc_to_mv a r MAX_ADC ≤ adc_to_mv b r MAX_ADC) := by
  refine ⟨?_, rfl, by decide, ?_, ?_, ?_, ?_⟩
  · rcases mainRun_split d with ⟨tr, heq, hsub, _⟩ | ⟨tr, heq, htr⟩
    · have hgv : Event.call .getValues PICO_OK ∉ tr := by
        intro hm
        exact getValues_not_in_masterSetupList d (hsub.subset (mem_callsOf.2 ⟨_, hm⟩))
      rw [heq]
      constructor <;> simp [failResult, retrievedOK, hgv]
    · have htrgv : Event.call .getValues PICO_OK ∉ tr := by
        rcases htr with ⟨_, rfl⟩ | ⟨_, rfl⟩ <;> simp [setupEventsPSNC, setupEventsOK]
      have hpoll : Event.call .getValues PICO_OK ∉ (pollLoop d).trace :=
        not_call_in_poll d (by decide) PICO_OK
      rcases hex : (pollLoop d).exit
      · by_cases hg : d.getValuesStatus = PICO_OK
        · rw [heq, ARB_gvOK d tr hex hg]
          constructor <;> simp [retrievedOK]
        · have hg2 : PICO_OK ≠ d.getValuesStatus := fun hh => hg hh.symm
          rw [heq, ARB_gvFail d tr hex hg]
          constructor <;> simp [retrievedOK, htrgv, hpoll, hg2]
      · rw [heq, ARB_errored d tr hex]
        constructor <;> simp [retrievedOK, htrgv, hpoll]
      · rw [heq, ARB_timedOut d tr hex]
        constructor <;> simp [retrievedOK, htrgv, hpoll]
  · intro r
    simp [adc_to_mv]
  · intro r
    rw [adc_to_mv]
    exact Int.mul_ediv_cancel_left (rangeMv r) (by decide)
  · intro r
    rw [adc_to_mv, neg_mul_comm]
    rw [Int.mul_ediv_cancel_left (-(rangeMv r)) (by decide)]
  · intro r a b hab
    rw [adc_to_mv, adc_to_mv]
    exact Int.ediv_le_ediv (by decide)
      (mul_le_mul_of_nonneg_right hab (rangeMv_nonneg r))

theorem adc_conversion_fixed_2V_range_witness :
    (mainRun dHappy).printedA = [(0, 32767, 2000)] ∧
    adc_to_mv (-32767) PS5000A_RANGE.PS5000A_2V MAX_ADC ≤
      adc_to_mv 32767 PS5000A_RANGE.PS5000A_2V MAX_ADC := by
  have h := adc_conversion_fixed_2V_range dHappy
  refine ⟨?_, h.2.2.2.2.2.2 PS5000A_RANGE.PS5000A_2V (-32767) 32767 (by decide)⟩
  have h1 := h.1.1
  rw [h1]
  decide

lemma ARB_shape (d : Driver) (tr : List Event) (hok : ∀ e ∈ tr, okEvent e) :
    FailFastShape (mainAfterRunBlock d tr) := by
  have hpolldrop : ∀ e ∈ (pollLoop d).trace.dropLast, okEvent e := by
    intro e he
    obtain ⟨j, rfl, hst⟩ := pollLoop_dropLast_ok d e he
    exact Or.inl hst
  rcases hex : (pollLoop d).exit
  · have hpollok : ∀ e ∈ (pollLoop d).trace, okEvent e := by
      intro e he
      obtain ⟨j, rfl, hst⟩ := pollLoop_all_ok_of_not_errored d (by rw [hex]; decide) e he
      exact Or.inl hst
    by_cases hg : d.getValuesStatus = PICO_OK
    · rw [ARB_gvOK d tr hex hg]
      have hXok : ∀ e ∈ (tr ++ (pollLoop d).trace) ++ [Event.call .getValues PICO_OK],
          okEvent e := by
        intro e he
        rcases List.mem_append.1 he with he | he
        · rcases List.mem_append.1 he with he | he
          · exact hok e he
          · exact hpollok e he
        · simp only [List.mem_singleton] at he
          subst he
          exact Or.inl rfl
      by_cases hc : d.closeUnitStatus = PICO_OK
      · constructor
        · intro e he
          rcases mem_dropLast_append he with he | he
          · exact hXok e he
          · simp only [List.dropLast_cons₂, List.dropLast_single, List.mem_cons,
              List.mem_singleton, List.not_mem_nil, or_false] at he
            rcases he with rfl | rfl <;> trivial
        · refine Or.inr ?_
          intro e he
          rcases List.mem_append.1 he with he | he
          · exact hXok e he
          · simp only [List.mem_cons, List.not_mem_nil, or_false] at he
            rcases he with rfl | rfl | rfl
            · trivial
            · trivial
            · exact Or.inl hc
      · constructor
        · intro e he
          rcases mem_dropLast_append he with he | he
          · exact hXok e he
          · simp only [List.dropLast_cons₂, List.dropLast_single, List.mem_cons,
              List.mem_singleton, List.not_mem_nil, or_false] at he
            rcases he with rfl | rfl <;> trivial
        · refine Or.inl ?_
          simp [hc]
    · rw [ARB_gvFail d tr hex hg]
      constructor
      · intro e he
        rcases mem_dropLast_append he with he | he
        · rcases List.mem_append.1 he with he | he
          · exact hok e he
          · exact hpollok e he
        · simp at he
      · exact Or.inl rfl
  · rw [ARB_errored d tr hex]
    constructor
    · intro e he
      rcases mem_dropLast_append he with he | he
      · exact hok e he
      · exact hpolldrop e he
    · exact Or.inl rfl
  · have hpollok : ∀ e ∈ (pollLoop d).trace, okEvent e := by
      intro e he
      obtain ⟨j, rfl, hst⟩ := pollLoop_all_ok_of_not_errored d (by rw [hex]; decide) e he
      exact Or.inl hst
    rw [ARB_timedOut d tr hex]
    constructor
    · intro e he
      rcases mem_dropLast_append he with he | he
      · rcases List.mem_append.1 he with he | he
        · exact hok e he
        · exact hpollok e he
      · simp only [List.dropLast_cons₂, List.dropLast_single, List.mem_singleton] at he
        subst he
        exact Or.inr (Or.inr rfl)
    · exact Or.inl rfl

lemma mainRun_shape (d : Driver) : FailFastShape (mainRun d) := by
  rcases mainRun_split d with ⟨tr, heq, _, hok, _⟩ | ⟨tr, heq, htr⟩
  · rw [heq]
    exact ⟨hok, Or.inl rfl⟩
  · rw [heq]
    refine ARB_shape d tr ?_
    rcases htr with ⟨_, rfl⟩ | ⟨_, rfl⟩ <;> decide

/-- Counterexample to claim C1 as stated: on the polling-timeout path the
`ps5000aStop` call can return a failure status (here 7) and yet a further
driver call (`ps5000aCloseUnit`) is still invoked after it — the program does
not terminate at that failing call. -/
theorem stop_failure_followed_by_close :
    dStopFail.stopStatus = 7 ∧ (7 : Nat) ≠ PICO_OK ∧
    (mainRun dStopFail).trace =
      (setupEventsOK ++ List.replicate 2002 (Event.call .isReady PICO_OK)) ++
        Event.call .stop 7 :: [Event.call .closeUnit PICO_OK] ∧
    [Event.call .closeUnit PICO_OK] ≠ ([] : List Event) := by
  refine ⟨rfl, by decide, ?_, by decide⟩
  rw [mainRun_dStopFail_eq,
    ARB_timedOut dStopFail setupEventsOK (by rw [pollLoop_dStopFail]),
    show ((⟨-1, setupEventsOK ++ (pollLoop dStopFail).trace ++
      [Event.call .stop dStopFail.stopStatus,
       Event.call .closeUnit dStopFail.closeUnitStatus],
      [], [], some (pollLoop dStopFail)⟩ : RunResult)).trace =
      setupEventsOK ++ (pollLoop dStopFail).trace ++
      [Event.call .stop dStopFail.stopStatus,
       Event.call .closeUnit dStopFail.closeUnitStatus] from rfl,
    pollLoop_dStopFail,
    show dStopFail.stopStatus = 7 from rfl,
    show dStopFail.closeUnitStatus = PICO_OK from rfl]

/-- Claim C1 (amended): every driver call that returns a non-success status —
other than open reporting power-not-connected (which is remediated) and the
`ps5000aStop` call on the timeout path (whose status the code ignores) — is the
final driver call of the run, and the run exits -1; moreover no driver call
other than the readiness query is ever issued twice, so no call is ever
retried. -/
theorem fail_fast_single_attempt (d : Driver) :
    (∀ pre c st post, (mainRun d).trace = pre ++ Event.call c st :: post →
      st ≠ PICO_OK →
      ¬(c = .openUnit ∧ st = PICO_POWER_SUPPLY_NOT_CONNECTED) →
      c ≠ .stop →
      post = [] ∧ (mainRun d).exitCode = -1) ∧
    (∀ c, c ≠ Call.isReady → (callsOf (mainRun d).trace).count c ≤ 1) := by
  have hshape := mainRun_shape d
  constructor
  · intro pre c st post hdec hst hopen hstop
    have hoknot : ¬ okEvent (Event.call c st) := by
      intro h
      rcases h with h | h | h
      · exact hst h
      · exact hopen h
      · exact hstop h
    constructor
    · by_contra hpost
      obtain ⟨q, x, hq⟩ := (List.eq_nil_or_concat post).resolve_left hpost
      have hmem : Event.call c st ∈ (mainRun d).trace.dropLast := by
        rw [hdec, hq, List.concat_eq_append,
          show pre ++ Event.call c st :: (q ++ [x]) =
            (pre ++ Event.call c st :: q) ++ [x] by simp,
          List.dropLast_concat]
        simp
      exact hoknot (hshape.1 _ hmem)
    · rcases hshape.2 with h | h
      · exact h
      · refine absurd (h _ ?_) hoknot
        rw [hdec]
        simp
  · intro c hc
    exact ((mainRun_calls_sublist d).count_le c).trans (count_masterList_le_one d c hc)

theorem fail_fast_single_attempt_witness :
    ([] : List Event) = [] ∧ (mainRun dChanFail).exitCode = -1 :=
  (fail_fast_single_attempt dChanFail).1 [.call .openUnit PICO_OK]
    (.setChannel .A) 5 [] (by decide) (by decide) (by decide) (by decide)
